import Mathlib

/-!
Verification of the production-report ETL script `etl_produccion.py`
(repository Portfolio-Data-Engineering).

The script's field normalizers, the three per-source parsers, and the
merge/validate pipeline are shallowly embedded here.  Scalar cell values
are modelled as `Option String` (a `none` models a pandas missing value,
`NaN`/`None`; a `some s` models a non-null value after Python's `str()`
coercion).  Python floats produced by `float(...)` / `pd.to_numeric` are
modelled as exact rationals (`ℚ`); the integer casts (`astype(int)`)
truncate toward zero as NumPy does.
-/

namespace Etl

/-- Python's `\s` character class (regex whitespace, ASCII part),
also the characters removed by `str.strip()` on the inputs at hand. -/
def pyIsSpace (c : Char) : Bool :=
  c = ' ' ∨ c = '\t' ∨ c = '\n' ∨ c = '\x0d' ∨ c = '\x0b' ∨ c = '\x0c'

/-- Lower-case table for the characters appearing in the data:
ASCII letters plus the accented Spanish vowels, `ñ` and `ü`
(mirrors Python's `str.lower()` on these characters). -/
def tablaMinusculas : List (Char × Char) :=
  [('A', 'a'), ('B', 'b'), ('C', 'c'), ('D', 'd'), ('E', 'e'), ('F', 'f'),
   ('G', 'g'), ('H', 'h'), ('I', 'i'), ('J', 'j'), ('K', 'k'), ('L', 'l'),
   ('M', 'm'), ('N', 'n'), ('O', 'o'), ('P', 'p'), ('Q', 'q'), ('R', 'r'),
   ('S', 's'), ('T', 't'), ('U', 'u'), ('V', 'v'), ('W', 'w'), ('X', 'x'),
   ('Y', 'y'), ('Z', 'z'),
   ('Á', 'á'), ('É', 'é'), ('Í', 'í'), ('Ó', 'ó'), ('Ú', 'ú'),
   ('Ñ', 'ñ'), ('Ü', 'ü')]

/-- Python `str.lower()` restricted to the alphabet of the data. -/
def pyToLower (c : Char) : Char :=
  (((tablaMinusculas.find? (fun p => p.1 = c)).map Prod.snd)).getD c

/-- Python `str.upper()` (used through `str.title()`), inverse table. -/
def pyToUpper (c : Char) : Char :=
  (((tablaMinusculas.find? (fun p => p.2 = c)).map Prod.fst)).getD c

/-- A cased (alphabetic) character for `str.title()` word detection. -/
def esCased (c : Char) : Bool :=
  ('a' ≤ c ∧ c ≤ 'z') ∨ ('A' ≤ c ∧ c ≤ 'Z') ∨
  (tablaMinusculas.any (fun p => p.1 = c ∨ p.2 = c))

/-- Python `str.strip()`: remove leading and trailing whitespace. -/
def recortar (cs : List Char) : List Char :=
  ((cs.dropWhile pyIsSpace).reverse.dropWhile pyIsSpace).reverse

/-- Decimal value of a digit string (most significant first). -/
def decodeDigits (ds : List Char) : Nat :=
  ds.foldl (fun a c => a * 10 + (c.toNat - 48)) 0

/-- The exact rational `±(n / 10 ^ k)`: the value denoted by a decimal
literal with integer-and-fraction digits `n` and `k` fraction digits. -/
def valorDecimal (neg : Bool) (n k : Nat) : ℚ :=
  mkRat (if neg then -(Int.ofNat n) else Int.ofNat n) (10 ^ k)

/-- Digits of a float literal after the optional sign: an integer part
and/or a fractional part introduced by a dot, at least one digit
overall, nothing else.  `neg` records a leading minus sign. -/
def parseFloatCuerpo (neg : Bool) (resto : List Char) : Option ℚ :=
  match resto.span Char.isDigit with
  | (ip, []) =>
      if ip = [] then none else some (valorDecimal neg (decodeDigits ip) 0)
  | (ip, '.' :: r3) =>
      match r3.span Char.isDigit with
      | (fp, []) =>
          if ip = [] ∧ fp = [] then none
          else some (valorDecimal neg
            (decodeDigits ip * 10 ^ fp.length + decodeDigits fp) fp.length)
      | _ => none
  | _ => none

/-- The numeric-literal core of Python's `float(...)` parser:
an optional sign followed by an integer part and/or a fractional part
(at least one digit overall).  `none` models the `ValueError` branch. -/
def parseFloat (cs : List Char) : Option ℚ :=
  parseFloatCuerpo (cs.head? = some '-')
    (if cs.head? = some '+' ∨ cs.head? = some '-' then cs.tail else cs)

/-- NumPy's `astype(int)` on a float value: truncation toward zero. -/
def truncar (q : ℚ) : Int :=
  Int.tdiv q.num (Int.ofNat q.den)

/-- The character class removed by `re.sub(r'[a-záéíóúñ\s/]+', '', ...)`
in `limpiar_cantidad`: lowercase ASCII letters, the accented lowercase
Spanish vowels and `ñ`, whitespace, and the slash. -/
def esLimpiable (c : Char) : Bool :=
  ('a' ≤ c ∧ c ≤ 'z') ∨ c = 'á' ∨ c = 'é' ∨ c = 'í' ∨ c = 'ó' ∨ c = 'ú' ∨
  c = 'ñ' ∨ pyIsSpace c ∨ c = '/'

/-- The `try: return float(texto) except: return 0.0` tail of
`limpiar_cantidad`. -/
def valorLimpio (l : List Char) : ℚ :=
  match parseFloat l with
  | some q => q
  | none => 0

/-- `limpiar_cantidad` (the Quantity normalizer): a missing value is `0`;
otherwise strip, lowercase, delete the unit-suffix characters, and parse
as a float, returning `0` when the parse fails. -/
def limpiar_cantidad (valor : Option String) : ℚ :=
  match valor with
  | none => 0
  | some v =>
      valorLimpio (((recortar v.data).map pyToLower).filter
        (fun c => esLimpiable c = false))

/-! ### Dates: `estandarizar_fecha` and the `datetime.strptime` formats

`datetime.strptime` compiles each format into a regular expression
(`%Y` is exactly four digits; `%m` and `%d` are one or two digits whose
value is range-checked, a zero-padded two-digit form being preferred),
then the `datetime` constructor validates the day against the month
length.  For the separator-delimited formats used here the regex is
deterministic: a field must consume the entire maximal digit run in
front of it.  `strftime('%Y-%m-%d')` renders zero-padded; the embedding
restricts itself to four-digit years, where `%Y` rendering is
zero-padded on every platform. -/

/-- A parsed calendar date (year, month, day). -/
structure Fecha where
  anio : Nat
  mes : Nat
  dia : Nat
deriving DecidableEq

/-- Gregorian leap year, as implemented by Python's `datetime`. -/
def bisiesto (y : Nat) : Bool :=
  y % 4 = 0 ∧ (y % 100 ≠ 0 ∨ y % 400 = 0)

/-- Days in a month, as validated by the `datetime` constructor. -/
def diasEnMes (y m : Nat) : Nat :=
  if m = 2 then (if bisiesto y then 29 else 28)
  else if m = 4 ∨ m = 6 ∨ m = 9 ∨ m = 11 then 30
  else 31

/-- The `datetime(y, m, d)` constructor's validity check. -/
def fechaValida (f : Fecha) : Bool :=
  1 ≤ f.anio ∧ f.anio ≤ 9999 ∧ 1 ≤ f.mes ∧ f.mes ≤ 12 ∧
  1 ≤ f.dia ∧ f.dia ≤ diasEnMes f.anio f.mes

/-- Two-digit zero-padded rendering (`%m`, `%d` in `strftime`). -/
def pad2 (n : Nat) : List Char :=
  [Nat.digitChar (n / 10), Nat.digitChar (n % 10)]

/-- Four-digit zero-padded rendering (`%Y` in `strftime`). -/
def pad4 (n : Nat) : List Char :=
  [Nat.digitChar (n / 1000), Nat.digitChar (n / 100 % 10),
   Nat.digitChar (n / 10 % 10), Nat.digitChar (n % 10)]

/-- `strptime` field `%m`/`%d`: one or two digits whose value lies in
`lo..hi`; the field consumes the whole digit run in front of it. -/
def pNum2 (lo hi : Nat) (cs : List Char) : Option (Nat × List Char) :=
  let p := cs.span Char.isDigit
  if p.1.length = 1 ∨ p.1.length = 2 then
    if lo ≤ decodeDigits p.1 ∧ decodeDigits p.1 ≤ hi then
      some (decodeDigits p.1, p.2)
    else none
  else none

/-- `strptime` field `%Y`: exactly four digits. -/
def pAnio (cs : List Char) : Option (Nat × List Char) :=
  let p := cs.span Char.isDigit
  if p.1.length = 4 then some (decodeDigits p.1, p.2) else none

/-- A literal separator character in a `strptime` format. -/
def pSep (c : Char) : List Char → Option (List Char)
  | x :: r => if x = c then some r else none
  | [] => none

/-- Final validation performed by the `datetime` constructor. -/
def fechaDe (y m d : Nat) : Option Fecha :=
  if fechaValida ⟨y, m, d⟩ then some ⟨y, m, d⟩ else none

/-- `strptime` with format `%d SEP %m SEP %Y`. -/
def parseDMA (sep : Char) (cs : List Char) : Option Fecha :=
  (pNum2 1 31 cs).bind fun p1 =>
  (pSep sep p1.2).bind fun r2 =>
  (pNum2 1 12 r2).bind fun p2 =>
  (pSep sep p2.2).bind fun r4 =>
  (pAnio r4).bind fun p3 =>
  if p3.2 = [] then fechaDe p3.1 p2.1 p1.1 else none

/-- `strptime` with format `%m SEP %d SEP %Y`. -/
def parseMDA (sep : Char) (cs : List Char) : Option Fecha :=
  (pNum2 1 12 cs).bind fun p1 =>
  (pSep sep p1.2).bind fun r2 =>
  (pNum2 1 31 r2).bind fun p2 =>
  (pSep sep p2.2).bind fun r4 =>
  (pAnio r4).bind fun p3 =>
  if p3.2 = [] then fechaDe p3.1 p1.1 p2.1 else none

/-- `strptime` with format `%Y SEP %m SEP %d`. -/
def parseAMD (sep : Char) (cs : List Char) : Option Fecha :=
  (pAnio cs).bind fun p1 =>
  (pSep sep p1.2).bind fun r2 =>
  (pNum2 1 12 r2).bind fun p2 =>
  (pSep sep p2.2).bind fun r4 =>
  (pNum2 1 31 r4).bind fun p3 =>
  if p3.2 = [] then fechaDe p1.1 p2.1 p3.1 else none

/-- The six date formats attempted by `estandarizar_fecha`. -/
inductive Formato
  | iso            -- '%Y-%m-%d'
  | diaMesAnioSlash -- '%d/%m/%Y'
  | mesDiaAnioSlash -- '%m/%d/%Y'
  | diaMesAnioGuion -- '%d-%m-%Y'
  | anioMesDiaSlash -- '%Y/%m/%d'
  | diaMesAnioPunto -- '%d.%m.%Y'
deriving DecidableEq

/-- `datetime.strptime(s, fmt)` for each supported format. -/
def parseFormato : Formato → List Char → Option Fecha
  | .iso => parseAMD '-'
  | .diaMesAnioSlash => parseDMA '/'
  | .mesDiaAnioSlash => parseMDA '/'
  | .diaMesAnioGuion => parseDMA '-'
  | .anioMesDiaSlash => parseAMD '/'
  | .diaMesAnioPunto => parseDMA '.'

/-- `strftime` rendering of a date in each supported format
(zero-padded fields). -/
def renderFormato : Formato → Fecha → List Char
  | .iso, f => pad4 f.anio ++ '-' :: (pad2 f.mes ++ '-' :: pad2 f.dia)
  | .diaMesAnioSlash, f => pad2 f.dia ++ '/' :: (pad2 f.mes ++ '/' :: pad4 f.anio)
  | .mesDiaAnioSlash, f => pad2 f.mes ++ '/' :: (pad2 f.dia ++ '/' :: pad4 f.anio)
  | .diaMesAnioGuion, f => pad2 f.dia ++ '-' :: (pad2 f.mes ++ '-' :: pad4 f.anio)
  | .anioMesDiaSlash, f => pad4 f.anio ++ '/' :: (pad2 f.mes ++ '/' :: pad2 f.dia)
  | .diaMesAnioPunto, f => pad2 f.dia ++ '.' :: (pad2 f.mes ++ '.' :: pad4 f.anio)

/-- `strftime('%Y-%m-%d')`: the canonical ISO rendering. -/
def fechaISO (f : Fecha) : List Char :=
  renderFormato .iso f

/-- Try the formats in order; the first successful parse wins. -/
def pruebaFormatos : List Formato → List Char → Option Fecha
  | [], _ => none
  | f :: fs, cs =>
    match parseFormato f cs with
    | some d => some d
    | none => pruebaFormatos fs cs

/-- The fixed priority order of formats tried by `estandarizar_fecha`
after the optional caller-supplied hint. -/
def formatosDefecto : List Formato :=
  [.iso, .diaMesAnioSlash, .mesDiaAnioSlash, .diaMesAnioGuion,
   .anioMesDiaSlash, .diaMesAnioPunto]

/-- `estandarizar_fecha`: a missing value maps to `None`; otherwise the
text is stripped and the formats are tried in priority order (the hint
first, when given); the first successful parse is re-rendered as ISO,
and if no format matches the stripped original text is returned. -/
def estandarizar_fecha (valor : Option String) (formato_origen : Option Formato) :
    Option String :=
  match valor with
  | none => none
  | some s =>
      let t := recortar s.data
      match pruebaFormatos (formato_origen.toList ++ formatosDefecto) t with
      | some f => some ⟨fechaISO f⟩
      | none => some ⟨t⟩

example : estandarizar_fecha (some "15/01/2026") none = some "2026-01-15" := by
  decide
example : estandarizar_fecha (some " 2026-03-07 ") none = some "2026-03-07" := by
  decide
example : estandarizar_fecha (some "01/05/2026") none = some "2026-05-01" := by
  decide
example : estandarizar_fecha (some "07.02.2026") none = some "2026-02-07" := by
  decide
example : estandarizar_fecha (some "2026/02/07") none = some "2026-02-07" := by
  decide
example : estandarizar_fecha (some "31/02/2026") none = some "31/02/2026" := by
  decide
example : estandarizar_fecha (some "05/03/2026") (some .diaMesAnioSlash)
    = some "2026-03-05" := by decide
example : estandarizar_fecha none none = none := rfl

/-! ### `estandarizar_producto`: strip, drop double quotes, title-case,
then fix the connectives `" De "` / `" Del "`. -/

/-- Python `str.title()`: a cased character following a non-cased one is
uppercased, a cased character following a cased one is lowercased. -/
def titulo : Bool → List Char → List Char
  | _, [] => []
  | prev, c :: r =>
      (if esCased c then (if prev then pyToLower c else pyToUpper c) else c)
        :: titulo (esCased c) r

/-- Python `str.replace(pat, sub)` with bounded fuel (one unit per
character consumed): scan left to right, replace each non-overlapping
occurrence, resume after the consumed pattern. -/
def reemplazarAux (pat sub : List Char) : Nat → List Char → List Char
  | 0, l => l
  | _ + 1, [] => []
  | n + 1, c :: r =>
      if pat ≠ [] ∧ pat.isPrefixOf (c :: r) then
        sub ++ reemplazarAux pat sub n ((c :: r).drop pat.length)
      else c :: reemplazarAux pat sub n r

/-- Python `str.replace(pat, sub)`. -/
def reemplazar (pat sub l : List Char) : List Char :=
  reemplazarAux pat sub l.length l

/-- `estandarizar_producto`: missing values pass through; otherwise
strip, remove `"` characters, title-case, then lowercase the exact
substrings `" De "` and `" Del "`. -/
def estandarizar_producto (nombre : Option String) : Option String :=
  match nombre with
  | none => none
  | some s =>
      let l := (recortar s.data).filter (fun c => c ≠ '"')
      let t := titulo false l
      some ⟨reemplazar " Del ".data " del ".data
              (reemplazar " De ".data " de ".data t)⟩

example : estandarizar_producto (some "BUJE BRONCE") = some "Buje Bronce" := by
  decide
example : estandarizar_producto (some "eje del motor") = some "Eje del Motor" := by
  decide
example : estandarizar_producto (some " \"Tuerca hex\" ") = some "Tuerca Hex" := by
  decide
example : estandarizar_producto none = none := rfl

/-! ### `estandarizar_maquina`: strip, then the two hyphenation
substitutions `re.sub(r'(\D)\s+(\d)', r'\1-\2')` (global, scanning) and
`re.sub(r'(\w)\s+([A-Z]$)', r'\1-\2')` (anchored at the end). -/

/-- One left-to-right scan of `re.sub(r'(\D)\s+(\d)', r'\1-\2', ...)`,
with bounded fuel (one unit per character consumed): at each position a
non-digit followed by a nonempty whitespace run followed by a digit is
rewritten to non-digit, hyphen, digit, and scanning resumes after the
digit. -/
def guionNumerosAux : Nat → List Char → List Char
  | 0, l => l
  | _ + 1, [] => []
  | n + 1, c :: cs =>
      if c.isDigit then c :: guionNumerosAux n cs
      else
        match cs.span pyIsSpace with
        | (w, r2) =>
          match w, r2 with
          | _ :: _, d :: resto =>
              if d.isDigit then c :: '-' :: d :: guionNumerosAux n resto
              else c :: guionNumerosAux n cs
          | _, _ => c :: guionNumerosAux n cs

/-- The first machine-name substitution (see `guionNumerosAux`). -/
def guionNumeros (l : List Char) : List Char :=
  guionNumerosAux l.length l

/-- Python's `\w` (word character), on the data's alphabet. -/
def esPalabra (c : Char) : Bool :=
  esCased c ∨ c.isDigit ∨ c = '_'

/-- The second machine-name substitution,
`re.sub(r'(\w)\s+([A-Z]$)', r'\1-\2', ...)`: a single trailing
uppercase letter separated by whitespace from a preceding word
character gets hyphenated (the `$` anchor allows at most one match;
inputs are pre-stripped, so no trailing newline case arises). -/
def guionLetraFinal (l : List Char) : List Char :=
  match l.reverse with
  | c :: resto =>
      if 'A' ≤ c ∧ c ≤ 'Z' then
        match resto.span pyIsSpace with
        | (w, r2) =>
          match w, r2 with
          | _ :: _, p :: r3 =>
              if esPalabra p then r3.reverse ++ [p, '-', c] else l
          | _, _ => l
      else l
  | [] => l

/-- `estandarizar_maquina`: missing values pass through; otherwise
strip, then apply the two hyphenation substitutions in order. -/
def estandarizar_maquina (nombre : Option String) : Option String :=
  match nombre with
  | none => none
  | some s => some ⟨guionLetraFinal (guionNumeros (recortar s.data))⟩

example : estandarizar_maquina (some "CNC 01") = some "CNC-01" := by decide
example : estandarizar_maquina (some "Fresadora B") = some "Fresadora-B" := by
  decide
example : estandarizar_maquina (some "Ya-Tiene-Guion") = some "Ya-Tiene-Guion" := by
  decide
example : estandarizar_maquina (some "M 1 B 2") = some "M-1 B-2" := by decide
example : estandarizar_maquina none = none := rfl

/-! ### The canonical record and the three source parsers -/

/-- A canonical row (`Fecha, Producto, Cantidad, Maquina, Operador`
plus the traceability column `Origen` added by the pipeline). -/
structure Fila where
  fecha : Option String
  producto : Option String
  cantidad : Int
  maquina : Option String
  operador : Option String
  origen : String
deriving DecidableEq

/-- A raw CSV table as produced by `pd.read_csv`: column names and rows
of cell values aligned with them. -/
structure TablaCruda where
  columnas : List String
  filas : List (List (Option String))
deriving DecidableEq

/-- The cell of row `fila` in column `nombre` of table `t`. -/
def celda (t : TablaCruda) (nombre : String) (fila : List (Option String)) :
    Option String :=
  match t.columnas.indexOf? nombre with
  | some i => (fila.get? i).getD none
  | none => none

/-- `df.rename(columns=...)`: rename the listed columns, keep the rest. -/
def renombrarColumnas (m : List (String × String)) (t : TablaCruda) : TablaCruda :=
  { t with
    columnas := t.columnas.map
      (fun c => (((m.find? (fun p => p.1 = c)).map Prod.snd)).getD c) }

/-- Per-source failure kinds caught at the parser-invocation boundary
in `ejecutar_etl` (`FileNotFoundError`, the empty-file `ValueError`,
`pd.errors.EmptyDataError`, `KeyError`, any other exception). -/
inductive ErrorPy
  | noEncontrado
  | archivoVacio
  | columnaFaltante
  | inesperado
deriving DecidableEq

/-- A canonical row built through the standard field normalizers (the
January/February path: `Cantidad` through `limpiar_cantidad` and
`astype(int)`), before `Origen` is attached. -/
def filaCanonica (hint : Option Formato)
    (fecha producto cantidad maquina operador : Option String) : Fila :=
  { fecha := estandarizar_fecha fecha hint
    producto := estandarizar_producto producto
    cantidad := truncar (limpiar_cantidad cantidad)
    maquina := estandarizar_maquina maquina
    operador := operador
    origen := "" }

/-- `pd.to_numeric(x, errors='coerce').fillna(0).astype(int)` on one
cell: parse as a number, treating missing or non-numeric values as 0,
then truncate to an integer. -/
def toNumericInt (v : Option String) : Int :=
  match v with
  | none => 0
  | some s =>
      match parseFloat (recortar s.data) with
      | some q => truncar q
      | none => 0

/-- Parser C's derived quantity:
`Cantidad = CANT_APROBADA − CANT_RECHAZADA` (no clamping). -/
def cantidadNeta (aprobada rechazada : Option String) : Int :=
  toNumericInt aprobada - toNumericInt rechazada

/-- A canonical row of the March source: quantity is derived via
`cantidadNeta`, the remaining fields go through the normalizers. -/
def filaMarzo (fecha producto aprobada rechazada maquina operador : Option String) :
    Fila :=
  { fecha := estandarizar_fecha fecha none
    producto := estandarizar_producto producto
    cantidad := cantidadNeta aprobada rechazada
    maquina := estandarizar_maquina maquina
    operador := operador
    origen := "" }

/-- The expected canonical columns (`COLUMNAS_FINALES` plus the source
columns each parser reads); accessing a missing one raises `KeyError`. -/
def columnasPresentes (t : TablaCruda) (cols : List String) : Bool :=
  cols.all (fun c => t.columnas.contains c)

/-- `procesar_enero`: columns already canonical; `Cantidad` nulls
become 0 via `limpiar_cantidad`; dates re-validated without a hint. -/
def procesar_enero (t : TablaCruda) : Except ErrorPy (List Fila × Nat) :=
  if columnasPresentes t ["Fecha", "Producto", "Cantidad", "Maquina", "Operador"] then
    .ok (t.filas.map (fun f =>
      filaCanonica none (celda t "Fecha" f) (celda t "Producto" f)
        (celda t "Cantidad" f) (celda t "Maquina" f) (celda t "Operador" f)),
      t.filas.length)
  else .error .columnaFaltante

/-- The February column rename (`mapeo_columnas`). -/
def mapeoFebrero : List (String × String) :=
  [("Dia de Produccion", "Fecha"), ("Item", "Producto"), ("Qty", "Cantidad"),
   ("Machine_ID", "Maquina"), ("Responsable", "Operador")]

/-- `procesar_febrero`: rename the mixed-language columns, convert the
dates with the `%d/%m/%Y` hint, clean the unit-suffixed quantities. -/
def procesar_febrero (t : TablaCruda) : Except ErrorPy (List Fila × Nat) :=
  let t2 := renombrarColumnas mapeoFebrero t
  if columnasPresentes t2 ["Fecha", "Producto", "Cantidad", "Maquina", "Operador"] then
    .ok (t2.filas.map (fun f =>
      filaCanonica (some .diaMesAnioSlash) (celda t2 "Fecha" f)
        (celda t2 "Producto" f) (celda t2 "Cantidad" f) (celda t2 "Maquina" f)
        (celda t2 "Operador" f)),
      t2.filas.length)
  else .error .columnaFaltante

/-- `procesar_marzo`: the table is the post-`skiprows=3` read; quantity
is derived from `CANT_APROBADA` and `CANT_RECHAZADA`, the upper-case
columns are renamed and normalized. -/
def procesar_marzo (t : TablaCruda) : Except ErrorPy (List Fila × Nat) :=
  if columnasPresentes t
      ["FECHA", "PRODUCTO", "CANT_APROBADA", "CANT_RECHAZADA", "MAQUINA", "OPERADOR"] then
    .ok (t.filas.map (fun f =>
      filaMarzo (celda t "FECHA" f) (celda t "PRODUCTO" f)
        (celda t "CANT_APROBADA" f) (celda t "CANT_RECHAZADA" f)
        (celda t "MAQUINA" f) (celda t "OPERADOR" f)),
      t.filas.length)
  else .error .columnaFaltante

/-! ### `ejecutar_etl`: per-source error isolation, merge, sort, dedup -/

/-- What the filesystem and `pd.read_csv` provide for one source file:
absent, zero bytes, unreadable (any other read failure), or a parsed
raw table. -/
inductive EstadoArchivo
  | ausente
  | vacio
  | ilegible
  | tabla (t : TablaCruda)
deriving DecidableEq

/-- The guarded call of one parser inside `ejecutar_etl`'s `try` block:
the existence and size checks, the read, then the parser itself. -/
def leerYProcesar (proc : TablaCruda → Except ErrorPy (List Fila × Nat)) :
    EstadoArchivo → Except ErrorPy (List Fila × Nat)
  | .ausente => .error .noEncontrado
  | .vacio => .error .archivoVacio
  | .ilegible => .error .inesperado
  | .tabla t => proc t

/-- Did this source succeed? -/
def esExito (r : Except ErrorPy (List Fila × Nat)) : Bool :=
  match r with
  | .ok _ => true
  | .error _ => false

/-- Row count contributed by a source (0 when it failed). -/
def filasDe (r : Except ErrorPy (List Fila × Nat)) : List Fila :=
  match r with
  | .ok (fs, _) => fs
  | .error _ => []

/-- Python `str.capitalize()`. -/
def capitalizar (s : String) : String :=
  match s.data with
  | [] => ""
  | c :: cs => ⟨pyToUpper c :: cs.map pyToLower⟩

/-- `df['Origen'] = mes.capitalize()`. -/
def conOrigen (mes : String) (fs : List Fila) : List Fila :=
  fs.map (fun f => { f with origen := capitalizar mes })

/-- Lexicographic "less or equal" on character sequences, mirroring
Python's string comparison by code point. -/
def leLex : List Char → List Char → Bool
  | [], _ => true
  | _ :: _, [] => false
  | a :: as2, b :: bs2 => if a < b then true else if a = b then leLex as2 bs2 else false

/-- The pandas `sort_values(by='Fecha')` comparison: lexicographic on
the ISO text, with missing dates placed last (`na_position='last'`). -/
def leFecha (a b : Fila) : Bool :=
  match a.fecha, b.fecha with
  | none, none => true
  | none, some _ => false
  | some _, none => true
  | some x, some y => leLex x.data y.data

/-- `sort_values(by='Fecha', ascending=True)` (some sorted permutation;
pandas' quicksort leaves the order of ties unspecified). -/
def ordenarPorFecha (l : List Fila) : List Fila :=
  l.insertionSort (fun a b => leFecha a b = true)

/-- `drop_duplicates()` (keep the first occurrence), generalized over
the rows already seen. -/
def quitarDup (vistos : List Fila) : List Fila → List Fila
  | [] => []
  | x :: xs =>
      if x ∈ vistos then quitarDup vistos xs
      else x :: quitarDup (x :: vistos) xs

/-- `df.duplicated().sum()`: the number of rows with an earlier equal
row, generalized over the rows already seen. -/
def contarDup (vistos : List Fila) : List Fila → Nat
  | [] => 0
  | x :: xs =>
      if x ∈ vistos then 1 + contarDup vistos xs
      else contarDup (x :: vistos) xs

/-- The observable outcome of one run: the process exit code, the
content written to `Reporte_Maestro.csv` (if written), the failed
source files, and the reported number of removed duplicates. -/
structure Resultado where
  codigo : Nat
  archivo : Option (List Fila)
  errores : List String
  duplicados : Nat
deriving DecidableEq

/-- The per-month loop body outcomes of `ejecutar_etl`: month key,
file name, and the guarded parser result. -/
def resultadosEtl (eEnero eFebrero eMarzo : EstadoArchivo) :
    List (String × String × Except ErrorPy (List Fila × Nat)) :=
  [("enero", "reporte_produccion_enero.csv", leerYProcesar procesar_enero eEnero),
   ("febrero", "produccion_feb_sucio.csv", leerYProcesar procesar_febrero eFebrero),
   ("marzo", "prod_marzo_v2.csv", leerYProcesar procesar_marzo eMarzo)]

/-- The `dataframes` list collected by the loop: each success's rows
with the `Origen` column attached. -/
def dataframesEtl (eEnero eFebrero eMarzo : EstadoArchivo) : List (List Fila) :=
  (resultadosEtl eEnero eFebrero eMarzo).filterMap (fun r =>
    match r.2.2 with
    | .ok (fs, _) => some (conOrigen r.1 fs)
    | .error _ => none)

/-- The `errores` list collected by the loop: the failing file names. -/
def erroresEtl (eEnero eFebrero eMarzo : EstadoArchivo) : List String :=
  (resultadosEtl eEnero eFebrero eMarzo).filterMap (fun r =>
    match r.2.2 with
    | .ok _ => none
    | .error _ => some r.2.1)

/-- `ejecutar_etl` composed with the `__main__` exit handling: process
each source inside its own `try`, collect failures, abort with exit
code 1 and no output when nothing succeeded, else concatenate, sort by
date, drop exact duplicates, write the file and exit 0. -/
def ejecutar_etl (eEnero eFebrero eMarzo : EstadoArchivo) : Resultado :=
  if (dataframesEtl eEnero eFebrero eMarzo).isEmpty then
    { codigo := 1, archivo := none,
      errores := erroresEtl eEnero eFebrero eMarzo, duplicados := 0 }
  else
    { codigo := 0
      archivo := some (quitarDup []
        (ordenarPorFecha (dataframesEtl eEnero eFebrero eMarzo).flatten))
      errores := erroresEtl eEnero eFebrero eMarzo
      duplicados := contarDup []
        (ordenarPorFecha (dataframesEtl eEnero eFebrero eMarzo).flatten) }

/-- A one-row January table used in concrete runs. -/
def tablaEneroEjemplo : TablaCruda :=
  { columnas := ["Fecha", "Producto", "Cantidad", "Maquina", "Operador"]
    filas := [[some "2026-01-15", some "BUJE BRONCE", some "10",
               some "CNC 01", some "Ana"],
              [some "2026-01-15", some "BUJE BRONCE", some "10",
               some "CNC 01", some "Ana"]] }

example :
    (ejecutar_etl (.tabla tablaEneroEjemplo) .ausente .vacio).codigo = 0 := by
  decide
example :
    (ejecutar_etl (.tabla tablaEneroEjemplo) .ausente .vacio).archivo =
      some [{ fecha := some "2026-01-15", producto := some "Buje Bronce",
              cantidad := 10, maquina := some "CNC-01",
              operador := some "Ana", origen := "Enero" }] := by
  decide
example :
    (ejecutar_etl (.tabla tablaEneroEjemplo) .ausente .vacio).duplicados = 1 := by
  decide
example : (ejecutar_etl .ausente .ausente .ilegible).codigo = 1 := by decide
example : (ejecutar_etl .ausente .ausente .ilegible).archivo = none := by decide
example :
    (ejecutar_etl (.tabla tablaEneroEjemplo) .ausente .vacio).errores =
      ["produccion_feb_sucio.csv", "prod_marzo_v2.csv"] := by decide

/-! ## Supporting lemmas -/

lemma mem_recortar {c : Char} {cs : List Char} (h : c ∈ recortar cs) : c ∈ cs := by
  unfold recortar at h
  rw [List.mem_reverse] at h
  have h2 := (List.dropWhile_sublist (l := (cs.dropWhile pyIsSpace).reverse)
    (p := pyIsSpace)).subset h
  rw [List.mem_reverse] at h2
  exact (List.dropWhile_sublist (l := cs) (p := pyIsSpace)).subset h2

lemma pyToLower_ne_guion {c : Char} (h : pyToLower c = '-') : c = '-' := by
  unfold pyToLower at h
  cases hf : tablaMinusculas.find? (fun p => p.1 = c) with
  | none => simpa [hf] using h
  | some p =>
      exfalso
      have hm := List.mem_of_find?_eq_some hf
      have hall : ∀ q ∈ tablaMinusculas, q.2 ≠ '-' := by decide
      exact hall p hm (by simpa [hf] using h)

lemma valorDecimal_nonneg (n k : Nat) : 0 ≤ valorDecimal false n k := by
  unfold valorDecimal
  rw [Rat.mkRat_eq_div]
  apply div_nonneg
  · simp
  · positivity

lemma parseFloatCuerpo_nonneg {resto : List Char} {q : ℚ}
    (h : parseFloatCuerpo false resto = some q) : 0 ≤ q := by
  unfold parseFloatCuerpo at h
  split at h
  · split at h
    · exact absurd h (by simp)
    · obtain rfl : valorDecimal false _ 0 = q := Option.some.inj h
      exact valorDecimal_nonneg _ _
  · split at h
    · split at h
      · exact absurd h (by simp)
      · obtain rfl : valorDecimal false _ _ = q := Option.some.inj h
        exact valorDecimal_nonneg _ _
    · exact absurd h (by simp)
  · exact absurd h (by simp)

lemma parseFloat_nonneg {cs : List Char} {q : ℚ} (hm : '-' ∉ cs)
    (h : parseFloat cs = some q) : 0 ≤ q := by
  unfold parseFloat at h
  have hh : (cs.head? = some '-') = False := by
    simp only [eq_iff_iff, iff_false]
    intro hhead
    cases cs with
    | nil => simp at hhead
    | cons a l =>
        simp only [List.head?_cons, Option.some.injEq] at hhead
        exact hm (hhead ▸ List.mem_cons_self a l)
  simp only [hh, decide_False] at h
  exact parseFloatCuerpo_nonneg h

lemma valorLimpio_nonneg {l : List Char} (h : '-' ∉ l) : 0 ≤ valorLimpio l := by
  unfold valorLimpio
  cases hp : parseFloat l with
  | none => simp
  | some q => simpa using parseFloat_nonneg h hp

/-! ## Claim C1 -/

/-- C1: `limpiar_cantidad` (normalizeQuantity) is total: a missing
value yields 0; otherwise the text is stripped, lowercased, cleared of
letters (accented included), whitespace and slashes, and parsed as a
number, with 0 on parse failure; null, empty, and unit-suffix-noise
inputs (whose cleaned text carries no minus sign) give a non-negative
parse or 0. -/
theorem limpiar_cantidad_contrato :
    limpiar_cantidad none = 0 ∧
    limpiar_cantidad (some "") = 0 ∧
    limpiar_cantidad (some "100 pzas") = 100 ∧
    limpiar_cantidad (some "  250   und ") = 250 ∧
    ∀ s : String, '-' ∉ s.data → 0 ≤ limpiar_cantidad (some s) := by
  refine ⟨by decide, by decide, by decide, by decide, ?_⟩
  intro s hs
  show 0 ≤ valorLimpio _
  apply valorLimpio_nonneg
  intro hmem
  have h1 : '-' ∈ (recortar s.data).map pyToLower := (List.mem_filter.mp hmem).1
  obtain ⟨c, hc, hlow⟩ := List.mem_map.mp h1
  exact hs (mem_recortar (pyToLower_ne_guion hlow ▸ hc))

/-- Witness for C1 at the unit-suffixed input `"5 pzas"`. -/
theorem limpiar_cantidad_contrato_testigo :
    '-' ∉ ("5 pzas" : String).data ∧ 0 ≤ limpiar_cantidad (some "5 pzas") :=
  ⟨by decide, limpiar_cantidad_contrato.2.2.2.2 "5 pzas" (by decide)⟩

/-! ## Claim C4 -/

/-- C4: every row produced by Parser C (March) carries
`Cantidad = CANT_APROBADA − CANT_RECHAZADA`, both sub-fields parsed
with missing/non-numeric treated as 0; 100 − 15 = 85, and a rejected
count above the approved one gives a negative, unclamped result. -/
theorem marzo_cantidad_derivada :
    (∀ (t : TablaCruda) (filas : List Fila) (n i : Nat) (fila : Fila)
        (cruda : List (Option String)),
        procesar_marzo t = .ok (filas, n) →
        filas.get? i = some fila →
        t.filas.get? i = some cruda →
        fila.cantidad =
          cantidadNeta (celda t "CANT_APROBADA" cruda)
            (celda t "CANT_RECHAZADA" cruda)) ∧
    cantidadNeta (some "100") (some "15") = 85 ∧
    cantidadNeta (some "10") (some "25") = -15 ∧ (-15 : Int) < 0 ∧
    cantidadNeta none (some "5") = -5 ∧
    cantidadNeta (some "abc") none = 0 := by
  refine ⟨?_, by decide, by decide, by decide, by decide, by decide⟩
  intro t filas n i fila cruda hok hget hcruda
  unfold procesar_marzo at hok
  split at hok
  · obtain ⟨hfilas, -⟩ := Prod.mk.injEq .. ▸ Except.ok.inj hok
    subst hfilas
    rw [List.get?_map, hcruda, Option.map_some'] at hget
    obtain rfl := Option.some.inj hget
    rfl
  · exact absurd hok (by simp)

/-- A one-row March table used for the C4 witness. -/
def tablaMarzoEjemplo : TablaCruda :=
  { columnas := ["FECHA", "PRODUCTO", "CANT_APROBADA", "CANT_RECHAZADA",
                 "MAQUINA", "OPERADOR"]
    filas := [[some "2026-03-10", some "EJE", some "100", some "15",
               some "CNC 02", some "Luis"]] }

/-- The canonical row Parser C produces from `tablaMarzoEjemplo`. -/
def filaMarzoEjemplo : Fila :=
  { fecha := some "2026-03-10", producto := some "Eje", cantidad := 85,
    maquina := some "CNC-02", operador := some "Luis", origen := "" }

/-- Witness for C4 on a concrete March table (100 approved, 15
rejected, derived quantity 85). -/
theorem marzo_cantidad_derivada_testigo :
    filaMarzoEjemplo.cantidad
      = cantidadNeta
          (celda tablaMarzoEjemplo "CANT_APROBADA"
            [some "2026-03-10", some "EJE", some "100", some "15",
             some "CNC 02", some "Luis"])
          (celda tablaMarzoEjemplo "CANT_RECHAZADA"
            [some "2026-03-10", some "EJE", some "100", some "15",
             some "CNC 02", some "Luis"]) :=
  marzo_cantidad_derivada.1 tablaMarzoEjemplo [filaMarzoEjemplo] 1 0
    filaMarzoEjemplo
    [some "2026-03-10", some "EJE", some "100", some "15",
     some "CNC 02", some "Luis"]
    (by rfl) (by decide) (by decide)

/-! ## Claim C2 -/

/-- C2: each source is processed inside its own `try`; whatever the
failure kind (absent file, zero bytes, unreadable content, missing
column, or any other per-source exception) the other parsers still
run, the failed file names are collected, and the run exits 0 with an
output file written exactly when at least one parser succeeded; with
zero successes it exits 1 and writes nothing. -/
theorem etl_aislamiento_errores (eE eF eM : EstadoArchivo) :
    ((ejecutar_etl eE eF eM).codigo = 0 ↔
      (esExito (leerYProcesar procesar_enero eE) = true ∨
       esExito (leerYProcesar procesar_febrero eF) = true ∨
       esExito (leerYProcesar procesar_marzo eM) = true)) ∧
    ((ejecutar_etl eE eF eM).archivo.isSome = true ↔
      (esExito (leerYProcesar procesar_enero eE) = true ∨
       esExito (leerYProcesar procesar_febrero eF) = true ∨
       esExito (leerYProcesar procesar_marzo eM) = true)) ∧
    ((ejecutar_etl eE eF eM).codigo = 1 ∧ (ejecutar_etl eE eF eM).archivo = none ↔
      ¬ (esExito (leerYProcesar procesar_enero eE) = true ∨
         esExito (leerYProcesar procesar_febrero eF) = true ∨
         esExito (leerYProcesar procesar_marzo eM) = true)) ∧
    (ejecutar_etl eE eF eM).errores =
      ((if esExito (leerYProcesar procesar_enero eE) then []
        else ["reporte_produccion_enero.csv"]) ++
       (if esExito (leerYProcesar procesar_febrero eF) then []
        else ["produccion_feb_sucio.csv"]) ++
       (if esExito (leerYProcesar procesar_marzo eM) then []
        else ["prod_marzo_v2.csv"])) := by
  rcases hE : leerYProcesar procesar_enero eE with e1 | ⟨fs1, n1⟩ <;>
  rcases hF : leerYProcesar procesar_febrero eF with e2 | ⟨fs2, n2⟩ <;>
  rcases hM : leerYProcesar procesar_marzo eM with e3 | ⟨fs3, n3⟩ <;>
    simp [ejecutar_etl, dataframesEtl, erroresEtl, resultadosEtl, esExito,
      hE, hF, hM]

/-- Witness for C2: with only the January file present and valid, the
run exits 0 (output written), and both other files are reported. -/
theorem etl_aislamiento_errores_testigo :
    (ejecutar_etl (.tabla tablaEneroEjemplo) .ausente .vacio).codigo = 0 ∧
    (ejecutar_etl (.tabla tablaEneroEjemplo) .ausente .vacio).errores =
      ["produccion_feb_sucio.csv", "prod_marzo_v2.csv"] := by
  have h := etl_aislamiento_errores (.tabla tablaEneroEjemplo) .ausente .vacio
  exact ⟨h.1.mpr (Or.inl (by decide)), by
    rw [h.2.2.2]
    decide⟩

/-! ## Dedup and sort lemmas (claims C3 and C9) -/

lemma mem_quitarDup {x : Fila} :
    ∀ (l vis : List Fila), x ∈ quitarDup vis l ↔ (x ∈ l ∧ x ∉ vis) := by
  intro l
  induction l with
  | nil => intro vis; simp [quitarDup]
  | cons y ys ih =>
      intro vis
      by_cases hyv : y ∈ vis
      · have hxy : x = y → x ∈ vis := fun h => h ▸ hyv
        simp only [quitarDup, if_pos hyv, ih, List.mem_cons]
        tauto
      · have hxy : x = y → x ∉ vis := fun h => h ▸ hyv
        simp only [quitarDup, if_neg hyv, ih, List.mem_cons]
        tauto

lemma quitarDup_sublist : ∀ (l vis : List Fila), List.Sublist (quitarDup vis l) l := by
  intro l
  induction l with
  | nil => intro vis; simp [quitarDup]
  | cons y ys ih =>
      intro vis
      by_cases hyv : y ∈ vis
      · simpa [quitarDup, if_pos hyv] using (ih vis).cons y
      · simpa [quitarDup, if_neg hyv] using (ih (y :: vis)).cons₂ y

lemma quitarDup_nodup : ∀ (l vis : List Fila), (quitarDup vis l).Nodup := by
  intro l
  induction l with
  | nil => intro vis; simp [quitarDup]
  | cons y ys ih =>
      intro vis
      by_cases hyv : y ∈ vis
      · simpa [quitarDup, if_pos hyv] using ih vis
      · simp only [quitarDup, if_neg hyv, List.nodup_cons]
        refine ⟨fun hmem => ?_, ih (y :: vis)⟩
        exact ((mem_quitarDup ys (y :: vis)).mp hmem).2 (List.mem_cons_self y vis)

lemma quitarDup_length_add :
    ∀ (l vis : List Fila), (quitarDup vis l).length + contarDup vis l = l.length := by
  intro l
  induction l with
  | nil => intro vis; simp [quitarDup, contarDup]
  | cons y ys ih =>
      intro vis
      by_cases hyv : y ∈ vis
      · simp only [quitarDup, contarDup, if_pos hyv, List.length_cons]
        have := ih vis
        omega
      · simp only [quitarDup, contarDup, if_neg hyv, List.length_cons]
        have := ih (y :: vis)
        omega

lemma leLex_total : ∀ x y : List Char, leLex x y = true ∨ leLex y x = true := by
  intro x
  induction x with
  | nil => intro y; left; rfl
  | cons a as2 ih =>
      intro y
      cases y with
      | nil => right; rfl
      | cons b bs =>
          rcases lt_trichotomy a b with hab | hab | hab
          · left; simp [leLex, hab]
          · subst hab
            rcases ih bs with h | h
            · left; simp [leLex, h]
            · right; simp [leLex, h]
          · right; simp [leLex, hab]

lemma leLex_trans :
    ∀ x y z : List Char, leLex x y = true → leLex y z = true → leLex x z = true := by
  intro x
  induction x with
  | nil => intro y z _ _; rfl
  | cons a as2 ih =>
      intro y z h1 h2
      cases y with
      | nil => simp [leLex] at h1
      | cons b bs =>
          cases z with
          | nil => simp [leLex] at h2
          | cons c cs =>
              simp only [leLex] at h1 h2 ⊢
              by_cases hab : a < b
              · by_cases hbc : b < c
                · simp [lt_trans hab hbc]
                · simp only [if_neg hbc] at h2
                  by_cases hbc2 : b = c
                  · simp [hbc2 ▸ hab]
                  · simp [if_neg hbc2] at h2
              · simp only [if_neg hab] at h1
                by_cases hab2 : a = b
                · subst hab2
                  simp only [if_pos rfl] at h1
                  by_cases hac : a < c
                  · simp [hac]
                  · simp only [if_neg hac]
                    by_cases hac2 : a = c
                    · subst hac2
                      simp only [if_pos rfl]
                      simp only [if_neg hac, if_pos rfl] at h2
                      exact ih bs cs h1 h2
                    · exfalso
                      simp only [if_neg hac] at h2
                      by_cases hbc2 : a = c
                      · exact hac2 hbc2
                      · simp [if_neg hbc2] at h2
                · simp [if_neg hab2] at h1

lemma leFecha_total : ∀ a b : Fila, leFecha a b = true ∨ leFecha b a = true := by
  intro a b
  unfold leFecha
  cases a.fecha with
  | none => cases b.fecha <;> simp
  | some x =>
      cases b.fecha with
      | none => simp
      | some y => exact leLex_total x.data y.data

lemma leFecha_trans :
    ∀ a b c : Fila, leFecha a b = true → leFecha b c = true → leFecha a c = true := by
  intro a b c h1 h2
  unfold leFecha at h1 h2 ⊢
  rcases ha : a.fecha with - | x <;>
  rcases hb : b.fecha with - | y <;>
  rcases hc : c.fecha with - | z <;>
    simp only [ha, hb, hc] at h1 h2 ⊢ <;>
    first
    | rfl
    | exact Bool.noConfusion h1
    | exact Bool.noConfusion h2
    | exact leLex_trans x.data y.data z.data h1 h2

instance : IsTotal Fila (fun a b => leFecha a b = true) := ⟨leFecha_total⟩

instance : IsTrans Fila (fun a b => leFecha a b = true) := ⟨leFecha_trans⟩

lemma ordenarPorFecha_pairwise (l : List Fila) :
    (ordenarPorFecha l).Pairwise (fun a b => leFecha a b = true) :=
  List.sorted_insertionSort _ l

lemma ordenarPorFecha_length (l : List Fila) :
    (ordenarPorFecha l).length = l.length :=
  (List.perm_insertionSort _ l).length_eq

lemma dataframesEtl_flatten_length (eE eF eM : EstadoArchivo) :
    (dataframesEtl eE eF eM).flatten.length =
      (filasDe (leerYProcesar procesar_enero eE)).length +
      (filasDe (leerYProcesar procesar_febrero eF)).length +
      (filasDe (leerYProcesar procesar_marzo eM)).length := by
  rcases hE : leerYProcesar procesar_enero eE with e1 | ⟨fs1, n1⟩ <;>
  rcases hF : leerYProcesar procesar_febrero eF with e2 | ⟨fs2, n2⟩ <;>
  rcases hM : leerYProcesar procesar_marzo eM with e3 | ⟨fs3, n3⟩ <;>
    simp [dataframesEtl, resultadosEtl, filasDe, conOrigen, hE, hF, hM] <;>
    omega

/-! ## Claim C3 -/

/-- C3: whenever the run writes a MasterTable, that table is sorted
ascending by the Date text (missing dates last), contains no two rows
identical across all six fields, and its row count plus the reported
number of removed duplicates equals the total number of rows
concatenated from the successful parsers. -/
theorem maestro_invariantes (eE eF eM : EstadoArchivo) (maestro : List Fila)
    (h : (ejecutar_etl eE eF eM).archivo = some maestro) :
    maestro.Pairwise (fun a b => leFecha a b = true) ∧
    maestro.Nodup ∧
    maestro.length + (ejecutar_etl eE eF eM).duplicados =
      (filasDe (leerYProcesar procesar_enero eE)).length +
      (filasDe (leerYProcesar procesar_febrero eF)).length +
      (filasDe (leerYProcesar procesar_marzo eM)).length := by
  unfold ejecutar_etl at h ⊢
  by_cases hvac : (dataframesEtl eE eF eM).isEmpty
  · rw [if_pos hvac] at h
    exact absurd h (by simp)
  · rw [if_neg hvac] at h ⊢
    obtain rfl :
        quitarDup [] (ordenarPorFecha (dataframesEtl eE eF eM).flatten) = maestro :=
      Option.some.inj h
    refine ⟨?_, quitarDup_nodup _ _, ?_⟩
    · exact (ordenarPorFecha_pairwise _).sublist (quitarDup_sublist _ _)
    · show _ + contarDup [] (ordenarPorFecha (dataframesEtl eE eF eM).flatten) = _
      rw [quitarDup_length_add, ordenarPorFecha_length,
        dataframesEtl_flatten_length]

/-- Witness for C3: the concrete single-success run (January table with
one duplicated row) has a master table that is duplicate-free and
satisfies 1 + 1 = 2 + 0 + 0. -/
theorem maestro_invariantes_testigo :
    ([{ fecha := some "2026-01-15", producto := some "Buje Bronce",
        cantidad := 10, maquina := some "CNC-01", operador := some "Ana",
        origen := "Enero" }] : List Fila).Nodup ∧
    ([{ fecha := some "2026-01-15", producto := some "Buje Bronce",
        cantidad := 10, maquina := some "CNC-01", operador := some "Ana",
        origen := "Enero" }] : List Fila).length +
      (ejecutar_etl (.tabla tablaEneroEjemplo) .ausente .vacio).duplicados =
      (filasDe (leerYProcesar procesar_enero (.tabla tablaEneroEjemplo))).length +
      (filasDe (leerYProcesar procesar_febrero .ausente)).length +
      (filasDe (leerYProcesar procesar_marzo .vacio)).length := by
  have h := maestro_invariantes (.tabla tablaEneroEjemplo) .ausente .vacio
    [{ fecha := some "2026-01-15", producto := some "Buje Bronce",
       cantidad := 10, maquina := some "CNC-01", operador := some "Ana",
       origen := "Enero" }] (by decide)
  exact ⟨h.2.1, h.2.2⟩

/-! ## Claim C9 -/

lemma quitarDup_indices :
    ∀ (l vis : List Fila),
      (quitarDup vis l).Pairwise (fun a b => l.indexOf a < l.indexOf b) := by
  intro l
  induction l with
  | nil => intro vis; simp [quitarDup]
  | cons y ys ih =>
      intro vis
      by_cases hyv : y ∈ vis
      · simp only [quitarDup, if_pos hyv]
        refine List.Pairwise.imp_of_mem ?_ (ih vis)
        intro a b ha hb hr
        have haa := (mem_quitarDup ys vis).mp ha
        have hbb := (mem_quitarDup ys vis).mp hb
        have hya : y ≠ a := fun he => haa.2 (he ▸ hyv)
        have hyb : y ≠ b := fun he => hbb.2 (he ▸ hyv)
        rw [List.indexOf_cons_ne ys hya, List.indexOf_cons_ne ys hyb]
        exact Nat.succ_lt_succ hr
      · simp only [quitarDup, if_neg hyv]
        rw [List.pairwise_cons]
        constructor
        · intro b hb
          have hbb := (mem_quitarDup ys (y :: vis)).mp hb
          have hyb : y ≠ b := fun he => hbb.2 (he ▸ List.mem_cons_self y vis)
          rw [List.indexOf_cons_self, List.indexOf_cons_ne ys hyb]
          exact Nat.succ_pos _
        · refine List.Pairwise.imp_of_mem ?_ (ih (y :: vis))
          intro a b ha hb hr
          have haa := (mem_quitarDup ys (y :: vis)).mp ha
          have hbb := (mem_quitarDup ys (y :: vis)).mp hb
          have hya : y ≠ a := fun he => haa.2 (he ▸ List.mem_cons_self y vis)
          have hyb : y ≠ b := fun he => hbb.2 (he ▸ List.mem_cons_self y vis)
          rw [List.indexOf_cons_ne ys hya, List.indexOf_cons_ne ys hyb]
          exact Nat.succ_lt_succ hr

/-- C9: dropping exact duplicates keeps, for every distinct row value,
exactly one copy — the one at the first occurrence — preserving the
order of first occurrences (strictly increasing first-occurrence
indices along a duplicate-free sublist containing every row value), and
the reported removed count (`contarDup`) is exactly the number of
dropped rows. -/
theorem duplicados_primera_aparicion (l : List Fila) :
    (∀ x : Fila, x ∈ quitarDup [] l ↔ x ∈ l) ∧
    (quitarDup [] l).Nodup ∧
    List.Sublist (quitarDup [] l) l ∧
    (quitarDup [] l).Pairwise (fun a b => l.indexOf a < l.indexOf b) ∧
    (quitarDup [] l).length + contarDup [] l = l.length := by
  refine ⟨fun x => ?_, quitarDup_nodup _ _, quitarDup_sublist _ _,
    quitarDup_indices _ _, quitarDup_length_add _ _⟩
  rw [mem_quitarDup]
  simp

/-- Witness for C9 on a concrete two-row list with one duplicate. -/
theorem duplicados_primera_aparicion_testigo :
    (quitarDup [] [filaMarzoEjemplo, filaMarzoEjemplo]).length +
      contarDup [] [filaMarzoEjemplo, filaMarzoEjemplo] =
      ([filaMarzoEjemplo, filaMarzoEjemplo] : List Fila).length :=
  (duplicados_primera_aparicion [filaMarzoEjemplo, filaMarzoEjemplo]).2.2.2.2

/-! ## Claim C6 -/

/-- C6 counterexample: the first hyphenation rule of
`estandarizar_maquina` has no end anchor, so a digit group that is not
the trailing one is also hyphenated: on `"M 1 B 2"` the code yields
`"M-1 B-2"`, not the `"M 1 B-2"` that a trailing-only first rule would
produce. -/
theorem maquina_solo_ultimo_refutado :
    estandarizar_maquina (some "M 1 B 2") = some "M-1 B-2" ∧
    (some "M-1 B-2" : Option String) ≠ some "M 1 B-2" :=
  ⟨by decide, by decide⟩

lemma recortar_sin_espacios (l : List Char)
    (h : ∀ c ∈ l, pyIsSpace c = false) : recortar l = l := by
  have hdrop : ∀ (m : List Char), (∀ c ∈ m, pyIsSpace c = false) →
      m.dropWhile pyIsSpace = m := by
    intro m hm
    cases m with
    | nil => rfl
    | cons c cs =>
        rw [List.dropWhile_cons_of_neg]
        simp [hm c (List.mem_cons_self c cs)]
  unfold recortar
  rw [hdrop _ h, hdrop _ (fun c hc => h c (List.mem_reverse.mp hc))]
  exact List.reverse_reverse l

lemma guionNumerosAux_sin_espacios :
    ∀ (n : Nat) (l : List Char), (∀ c ∈ l, pyIsSpace c = false) →
      guionNumerosAux n l = l := by
  intro n
  induction n with
  | zero => intro l _; rfl
  | succ n ih =>
      intro l hl
      cases l with
      | nil => rfl
      | cons c cs =>
          have hcs : ∀ d ∈ cs, pyIsSpace d = false :=
            fun d hd => hl d (List.mem_cons_of_mem c hd)
          have htake : cs.takeWhile pyIsSpace = [] := by
            cases cs with
            | nil => rfl
            | cons d ds => simp [hcs d (List.mem_cons_self d ds)]
          by_cases hd : c.isDigit
          · simp [guionNumerosAux, hd, ih cs hcs]
          · simp [guionNumerosAux, hd, List.span_eq_take_drop, htake,
              ih cs hcs]

lemma guionLetraFinal_sin_espacios (l : List Char)
    (h : ∀ c ∈ l, pyIsSpace c = false) : guionLetraFinal l = l := by
  cases hrev : l.reverse with
  | nil => simp [guionLetraFinal, hrev]
  | cons c resto =>
      have hresto : ∀ d ∈ resto, pyIsSpace d = false := by
        intro d hd
        apply h
        rw [← List.reverse_reverse l, hrev]
        exact List.mem_reverse.mpr (List.mem_cons_of_mem c hd)
      have htake : resto.takeWhile pyIsSpace = [] := by
        cases resto with
        | nil => rfl
        | cons d ds => simp [hresto d (List.mem_cons_self d ds)]
      simp only [guionLetraFinal, hrev, List.span_eq_take_drop, htake]
      split <;> rfl

/-- C6 amended: `estandarizar_maquina` trims, then the first rule
hyphenates **every** whitespace gap between a non-digit and a following
digit (not only the trailing digit group), and the second rule
hyphenates only a trailing single uppercase letter; the spec's three
examples hold, `"M 1 B 2"` shows the global first rule, and a
whitespace-free name is left unchanged. -/
theorem maquina_guiones :
    estandarizar_maquina (some "CNC 01") = some "CNC-01" ∧
    estandarizar_maquina (some "Fresadora B") = some "Fresadora-B" ∧
    estandarizar_maquina (some "Ya-Tiene-Guion") = some "Ya-Tiene-Guion" ∧
    estandarizar_maquina (some "M 1 B 2") = some "M-1 B-2" ∧
    ∀ s : String, (∀ c ∈ s.data, pyIsSpace c = false) →
      estandarizar_maquina (some s) = some s := by
  refine ⟨by decide, by decide, by decide, by decide, ?_⟩
  intro s hs
  show some ⟨guionLetraFinal (guionNumeros (recortar s.data))⟩ = some s
  rw [recortar_sin_espacios _ hs]
  unfold guionNumeros
  rw [guionNumerosAux_sin_espacios _ _ hs, guionLetraFinal_sin_espacios _ hs]

/-- Witness for C6 at the whitespace-free name `"Torno9"`. -/
theorem maquina_guiones_testigo :
    (∀ c ∈ ("Torno9" : String).data, pyIsSpace c = false) ∧
    estandarizar_maquina (some "Torno9") = some "Torno9" :=
  ⟨by decide, maquina_guiones.2.2.2.2 "Torno9" (by decide)⟩

/-! ## Claim C7 -/

lemma pyToLower_comilla {c : Char} (h : pyToLower c = '"') : c = '"' := by
  unfold pyToLower at h
  cases hf : tablaMinusculas.find? (fun p => p.1 = c) with
  | none => simpa [hf] using h
  | some p =>
      exfalso
      have hm := List.mem_of_find?_eq_some hf
      have hall : ∀ q ∈ tablaMinusculas, q.2 ≠ '"' := by decide
      exact hall p hm (by simpa [hf] using h)

lemma pyToUpper_comilla {c : Char} (h : pyToUpper c = '"') : c = '"' := by
  unfold pyToUpper at h
  cases hf : tablaMinusculas.find? (fun p => p.2 = c) with
  | none => simpa [hf] using h
  | some p =>
      exfalso
      have hm := List.mem_of_find?_eq_some hf
      have hall : ∀ q ∈ tablaMinusculas, q.1 ≠ '"' := by decide
      exact hall p hm (by simpa [hf] using h)

lemma mem_titulo :
    ∀ (l : List Char) (b : Bool) (x : Char), x ∈ titulo b l →
      ∃ c ∈ l, x = c ∨ x = pyToLower c ∨ x = pyToUpper c := by
  intro l
  induction l with
  | nil => intro b x hx; simp [titulo] at hx
  | cons c cs ih =>
      intro b x hx
      rw [titulo] at hx
      rcases List.mem_cons.mp hx with heq | hmem
      · refine ⟨c, List.mem_cons_self c cs, ?_⟩
        by_cases hc : esCased c = true
        · rw [if_pos hc] at heq
          by_cases hb : b = true
          · exact Or.inr (Or.inl (by simpa [hb] using heq))
          · have hb2 : b = false := by
              cases b
              · rfl
              · exact absurd rfl hb
            exact Or.inr (Or.inr (by simpa [hb2] using heq))
        · rw [if_neg hc] at heq
          exact Or.inl heq
      · obtain ⟨d, hd, hor⟩ := ih (esCased c) x hmem
        exact ⟨d, List.mem_cons_of_mem c hd, hor⟩

lemma mem_reemplazarAux (pat sub : List Char) :
    ∀ (n : Nat) (l : List Char) (x : Char),
      x ∈ reemplazarAux pat sub n l → x ∈ l ∨ x ∈ sub := by
  intro n
  induction n with
  | zero => intro l x hx; exact Or.inl hx
  | succ n ih =>
      intro l x hx
      cases l with
      | nil => simp [reemplazarAux] at hx
      | cons c r =>
          rw [reemplazarAux] at hx
          by_cases hp : pat ≠ [] ∧ pat.isPrefixOf (c :: r)
          · rw [if_pos hp] at hx
            rcases List.mem_append.mp hx with h | h
            · exact Or.inr h
            · rcases ih _ x h with h2 | h2
              · exact Or.inl (List.mem_of_mem_drop h2)
              · exact Or.inr h2
          · rw [if_neg hp] at hx
            rcases List.mem_cons.mp hx with h | h
            · exact Or.inl (h ▸ List.mem_cons_self c r)
            · rcases ih _ x h with h2 | h2
              · exact Or.inl (List.mem_cons_of_mem c h2)
              · exact Or.inr h2

/-- C7: `estandarizar_producto` on a non-null input trims, strips the
embedded double quotes, title-cases, and lowercases the interior
connectives `" De "` / `" Del "`: the spec's two examples hold, the
function always returns a value on non-null input, and no double quote
survives into any output. -/
theorem producto_titulo_conectivas :
    estandarizar_producto (some "BUJE BRONCE") = some "Buje Bronce" ∧
    estandarizar_producto (some "eje del motor") = some "Eje del Motor" ∧
    (∀ s : String, (estandarizar_producto (some s)).isSome = true) ∧
    (∀ s t : String, estandarizar_producto (some s) = some t → '"' ∉ t.data) := by
  refine ⟨by decide, by decide, fun s => rfl, ?_⟩
  intro s t h
  obtain rfl :
      (⟨reemplazar " Del ".data " del ".data
          (reemplazar " De ".data " de ".data
            (titulo false ((recortar s.data).filter (fun c => c ≠ '"'))))⟩ : String)
        = t := Option.some.inj h
  intro hmem
  have hmem2 : '"' ∈ reemplazar " Del ".data " del ".data
      (reemplazar " De ".data " de ".data
        (titulo false ((recortar s.data).filter (fun c => c ≠ '"')))) := hmem
  rcases mem_reemplazarAux _ _ _ _ _ hmem2 with h1 | h1
  · rcases mem_reemplazarAux _ _ _ _ _ h1 with h2 | h2
    · obtain ⟨c, hc, hor⟩ := mem_titulo _ _ _ h2
      have hcq : ¬(c = '"') := by simpa using (List.mem_filter.mp hc).2
      rcases hor with he | he | he
      · exact hcq he.symm
      · exact hcq (pyToLower_comilla he.symm)
      · exact hcq (pyToUpper_comilla he.symm)
    · revert h2; decide
  · revert h1; decide

/-- Witness for C7: the output on an input containing a double quote
carries no double quote. -/
theorem producto_titulo_conectivas_testigo :
    estandarizar_producto (some "A\"B") = some "Ab" ∧
    '"' ∉ ("Ab" : String).data :=
  ⟨by decide, producto_titulo_conectivas.2.2.2 "A\"B" "Ab" (by decide)⟩

/-! ## Digit, pad and span lemmas for the date round-trip (claims C5, C8) -/

lemma digitChar_isDigit {k : Nat} (h : k < 10) :
    (Nat.digitChar k).isDigit = true := by
  interval_cases k <;> decide

lemma digitChar_toNat {k : Nat} (h : k < 10) :
    (Nat.digitChar k).toNat = 48 + k := by
  interval_cases k <;> decide

lemma digitChar_no_espacio {k : Nat} (h : k < 10) :
    pyIsSpace (Nat.digitChar k) = false := by
  interval_cases k <;> decide

lemma pad2_digitos {n : Nat} (h : n < 100) : ∀ c ∈ pad2 n, c.isDigit = true := by
  intro c hc
  rcases List.mem_cons.mp hc with rfl | hc2
  · exact digitChar_isDigit (by omega)
  · rcases List.mem_cons.mp hc2 with rfl | hc3
    · exact digitChar_isDigit (Nat.mod_lt _ (by omega))
    · simp at hc3

lemma pad4_digitos {n : Nat} (h : n < 10000) : ∀ c ∈ pad4 n, c.isDigit = true := by
  intro c hc
  simp only [pad4, List.mem_cons, List.not_mem_nil, or_false] at hc
  rcases hc with rfl | rfl | rfl | rfl
  · exact digitChar_isDigit (by omega)
  · exact digitChar_isDigit (Nat.mod_lt _ (by omega))
  · exact digitChar_isDigit (Nat.mod_lt _ (by omega))
  · exact digitChar_isDigit (Nat.mod_lt _ (by omega))

lemma pad2_no_espacio {n : Nat} (h : n < 100) :
    ∀ c ∈ pad2 n, pyIsSpace c = false := by
  intro c hc
  simp only [pad2, List.mem_cons, List.not_mem_nil, or_false] at hc
  rcases hc with rfl | rfl
  · exact digitChar_no_espacio (by omega)
  · exact digitChar_no_espacio (Nat.mod_lt _ (by omega))

lemma pad4_no_espacio {n : Nat} (h : n < 10000) :
    ∀ c ∈ pad4 n, pyIsSpace c = false := by
  intro c hc
  simp only [pad4, List.mem_cons, List.not_mem_nil, or_false] at hc
  rcases hc with rfl | rfl | rfl | rfl
  · exact digitChar_no_espacio (by omega)
  · exact digitChar_no_espacio (Nat.mod_lt _ (by omega))
  · exact digitChar_no_espacio (Nat.mod_lt _ (by omega))
  · exact digitChar_no_espacio (Nat.mod_lt _ (by omega))

lemma decode_pad2 {n : Nat} (h : n < 100) : decodeDigits (pad2 n) = n := by
  unfold decodeDigits pad2
  simp only [List.foldl_cons, List.foldl_nil]
  rw [digitChar_toNat (by omega : n / 10 < 10),
    digitChar_toNat (Nat.mod_lt _ (by omega) : n % 10 < 10)]
  omega

lemma decode_pad4 {n : Nat} (h : n < 10000) : decodeDigits (pad4 n) = n := by
  unfold decodeDigits pad4
  simp only [List.foldl_cons, List.foldl_nil]
  rw [digitChar_toNat (by omega : n / 1000 < 10),
    digitChar_toNat (Nat.mod_lt _ (by omega) : n / 100 % 10 < 10),
    digitChar_toNat (Nat.mod_lt _ (by omega) : n / 10 % 10 < 10),
    digitChar_toNat (Nat.mod_lt _ (by omega) : n % 10 < 10)]
  omega

/-- Head condition: the remainder does not start with a digit. -/
def sinDigitoInicial (r : List Char) : Prop :=
  ∀ c, r.head? = some c → c.isDigit = false

lemma sinDigitoInicial_vacio : sinDigitoInicial [] := by
  intro c h
  simp at h

lemma sinDigitoInicial_sep {ch : Char} (hch : ch.isDigit = false)
    (rest : List Char) : sinDigitoInicial (ch :: rest) := by
  intro c h
  obtain rfl : ch = c := Option.some.inj (by simpa using h)
  exact hch

lemma span_digitos (ds r : List Char) (hds : ∀ c ∈ ds, c.isDigit = true)
    (hr : sinDigitoInicial r) :
    (ds ++ r).span Char.isDigit = (ds, r) := by
  rw [List.span_eq_take_drop]
  induction ds with
  | nil =>
      simp only [List.nil_append]
      cases r with
      | nil => simp
      | cons c cr =>
          have := hr c rfl
          simp [this]
  | cons d ds ih =>
      have hd := hds d (List.mem_cons_self d ds)
      have ihh := ih (fun c hc => hds c (List.mem_cons_of_mem d hc))
      obtain ⟨h1, h2⟩ := Prod.mk.injEq .. ▸ ihh
      simp only [List.cons_append, List.takeWhile_cons, List.dropWhile_cons, hd,
        if_true, h1, h2]

lemma pNum2_pad2 (lo hi n : Nat) (h : n < 100) (r : List Char)
    (hr : sinDigitoInicial r) :
    pNum2 lo hi (pad2 n ++ r) =
      if lo ≤ n ∧ n ≤ hi then some (n, r) else none := by
  unfold pNum2
  rw [span_digitos (pad2 n) r (pad2_digitos h) hr]
  have hlen : (pad2 n).length = 2 := rfl
  simp [hlen, decode_pad2 h]

lemma pNum2_pad2_exito (lo hi : Nat) {n : Nat} (h : n < 100) (h1 : lo ≤ n)
    (h2 : n ≤ hi) (r : List Char) (hr : sinDigitoInicial r) :
    pNum2 lo hi (pad2 n ++ r) = some (n, r) := by
  rw [pNum2_pad2 lo hi n h r hr, if_pos ⟨h1, h2⟩]

lemma pNum2_pad4_fail (lo hi y : Nat) (hy : y < 10000) (r : List Char)
    (hr : sinDigitoInicial r) :
    pNum2 lo hi (pad4 y ++ r) = none := by
  unfold pNum2
  rw [span_digitos (pad4 y) r (pad4_digitos hy) hr]
  have hlen : (pad4 y).length = 4 := rfl
  simp [hlen]

lemma pAnio_pad4 (y : Nat) (hy : y < 10000) (r : List Char)
    (hr : sinDigitoInicial r) :
    pAnio (pad4 y ++ r) = some (y, r) := by
  unfold pAnio
  rw [span_digitos (pad4 y) r (pad4_digitos hy) hr]
  have hlen : (pad4 y).length = 4 := rfl
  simp [hlen, decode_pad4 hy]

lemma pAnio_pad2_fail (n : Nat) (h : n < 100) (r : List Char)
    (hr : sinDigitoInicial r) :
    pAnio (pad2 n ++ r) = none := by
  unfold pAnio
  rw [span_digitos (pad2 n) r (pad2_digitos h) hr]
  have hlen : (pad2 n).length = 2 := rfl
  simp [hlen]

lemma pSep_mismo (c : Char) (r : List Char) : pSep c (c :: r) = some r := by
  simp [pSep]

lemma pSep_distinto {c d : Char} (h : d ≠ c) (r : List Char) :
    pSep c (d :: r) = none := by
  simp [pSep, h]

lemma diasEnMes_le_31 (y m : Nat) : diasEnMes y m ≤ 31 := by
  unfold diasEnMes
  split
  · split <;> omega
  · split <;> omega

lemma diasEnMes_ge_28 (y m : Nat) : 28 ≤ diasEnMes y m := by
  unfold diasEnMes
  split
  · split <;> omega
  · split <;> omega

lemma fechaValida_descomp {f : Fecha} (hv : fechaValida f = true) :
    1 ≤ f.anio ∧ f.anio ≤ 9999 ∧ 1 ≤ f.mes ∧ f.mes ≤ 12 ∧
    1 ≤ f.dia ∧ f.dia ≤ diasEnMes f.anio f.mes := by
  simpa [fechaValida] using hv

lemma fechaDe_valida {f : Fecha} (hv : fechaValida f = true) :
    fechaDe f.anio f.mes f.dia = some f := by
  unfold fechaDe
  rw [if_pos (show fechaValida ⟨f.anio, f.mes, f.dia⟩ = true from hv)]

lemma fechaDe_some {y m d : Nat} {f : Fecha} (h : fechaDe y m d = some f) :
    fechaValida f = true ∧ f = ⟨y, m, d⟩ := by
  unfold fechaDe at h
  split at h
  · obtain rfl := Option.some.inj h
    constructor
    · assumption
    · rfl
  · exact absurd h (by simp)

lemma fechaDe_exito {y m d : Nat} (h1 : 1 ≤ y) (h2 : y ≤ 9999) (h3 : 1 ≤ m)
    (h4 : m ≤ 12) (h5 : 1 ≤ d) (h6 : d ≤ diasEnMes y m) :
    fechaDe y m d = some ⟨y, m, d⟩ := by
  unfold fechaDe
  rw [if_pos]
  simpa [fechaValida] using ⟨h1, h2, h3, h4, h5, h6⟩

lemma bind_some {α β : Type} (a : α) (f : α → Option β) :
    (some a).bind f = f a := rfl

lemma bind_none {α β : Type} (f : α → Option β) :
    (none : Option α).bind f = none := rfl

/-! ### Evaluation of the format parsers on zero-padded renderings -/

lemma parseAMD_render {sep : Char} (hsep : sep.isDigit = false) {y m d : Nat}
    (hy : y < 10000) (hm : m < 100) (hm1 : 1 ≤ m) (hm2 : m ≤ 12)
    (hd : d < 100) (hd1 : 1 ≤ d) (hd2 : d ≤ 31) :
    parseAMD sep (pad4 y ++ sep :: (pad2 m ++ sep :: pad2 d)) =
      fechaDe y m d := by
  have e1 := pAnio_pad4 y hy (sep :: (pad2 m ++ sep :: pad2 d))
    (sinDigitoInicial_sep hsep _)
  have e2 := pNum2_pad2_exito 1 12 hm hm1 hm2 (sep :: pad2 d)
    (sinDigitoInicial_sep hsep _)
  have e3 : pNum2 1 31 (pad2 d) = some (d, []) := by
    simpa using pNum2_pad2_exito 1 31 hd hd1 hd2 [] sinDigitoInicial_vacio
  simp only [parseAMD, e1, bind_some, pSep_mismo, e2, e3]
  rfl

lemma parseDMA_render {sep : Char} (hsep : sep.isDigit = false) {y m d : Nat}
    (hy : y < 10000) (hm : m < 100) (hm1 : 1 ≤ m) (hm2 : m ≤ 12)
    (hd : d < 100) (hd1 : 1 ≤ d) (hd2 : d ≤ 31) :
    parseDMA sep (pad2 d ++ sep :: (pad2 m ++ sep :: pad4 y)) =
      fechaDe y m d := by
  have e1 := pNum2_pad2_exito 1 31 hd hd1 hd2 (sep :: (pad2 m ++ sep :: pad4 y))
    (sinDigitoInicial_sep hsep _)
  have e2 := pNum2_pad2_exito 1 12 hm hm1 hm2 (sep :: pad4 y)
    (sinDigitoInicial_sep hsep _)
  have e3 : pAnio (pad4 y) = some (y, []) := by
    simpa using pAnio_pad4 y hy [] sinDigitoInicial_vacio
  simp only [parseDMA, e1, bind_some, pSep_mismo, e2, e3]
  rfl

lemma parseMDA_render {sep : Char} (hsep : sep.isDigit = false) {y m d : Nat}
    (hy : y < 10000) (hm : m < 100) (hm1 : 1 ≤ m) (hm2 : m ≤ 12)
    (hd : d < 100) (hd1 : 1 ≤ d) (hd2 : d ≤ 31) :
    parseMDA sep (pad2 m ++ sep :: (pad2 d ++ sep :: pad4 y)) =
      fechaDe y m d := by
  have e1 := pNum2_pad2_exito 1 12 hm hm1 hm2 (sep :: (pad2 d ++ sep :: pad4 y))
    (sinDigitoInicial_sep hsep _)
  have e2 := pNum2_pad2_exito 1 31 hd hd1 hd2 (sep :: pad4 y)
    (sinDigitoInicial_sep hsep _)
  have e3 : pAnio (pad4 y) = some (y, []) := by
    simpa using pAnio_pad4 y hy [] sinDigitoInicial_vacio
  simp only [parseMDA, e1, bind_some, pSep_mismo, e2, e3]
  rfl

/-- The day/month swap: `%d/%m/%Y` accepts an `MM/DD/YYYY` rendering
whenever the day fits in a month slot (`d ≤ 12`), reading `(y, d, m)`. -/
lemma parseDMA_intercambio {y m d : Nat}
    (hy : y < 10000) (hm : m < 100) (hm1 : 1 ≤ m) (hm2 : m ≤ 12)
    (hd : d < 100) (hd1 : 1 ≤ d) (hd2 : d ≤ 12) :
    parseDMA '/' (pad2 m ++ '/' :: (pad2 d ++ '/' :: pad4 y)) =
      fechaDe y d m := by
  have e1 := pNum2_pad2_exito 1 31 hm hm1 (le_trans hm2 (by omega))
    ('/' :: (pad2 d ++ '/' :: pad4 y))
    (sinDigitoInicial_sep (by decide) _)
  have e2 := pNum2_pad2_exito 1 12 hd hd1 hd2 ('/' :: pad4 y)
    (sinDigitoInicial_sep (by decide) _)
  have e3 : pAnio (pad4 y) = some (y, []) := by
    simpa using pAnio_pad4 y hy [] sinDigitoInicial_vacio
  simp only [parseDMA, e1, bind_some, pSep_mismo, e2, e3]
  rfl

/-- `%d/%m/%Y` rejects an `MM/DD/YYYY` rendering whose day exceeds 12
(the month slot overflows). -/
lemma parseDMA_intercambio_fail {y m d : Nat}
    (hy : y < 10000) (hm : m < 100) (hm1 : 1 ≤ m) (hm2 : m ≤ 12)
    (hd : d < 100) (hd2 : 12 < d) :
    parseDMA '/' (pad2 m ++ '/' :: (pad2 d ++ '/' :: pad4 y)) = none := by
  have e1 := pNum2_pad2_exito 1 31 hm hm1 (le_trans hm2 (by omega))
    ('/' :: (pad2 d ++ '/' :: pad4 y))
    (sinDigitoInicial_sep (by decide) _)
  have e2 : pNum2 1 12 (pad2 d ++ '/' :: pad4 y) = none := by
    rw [pNum2_pad2 1 12 d hd _ (sinDigitoInicial_sep (by decide) _),
      if_neg (by omega)]
  simp only [parseDMA, e1, bind_some, pSep_mismo, e2, bind_none]

/-- `%Y...` formats reject a rendering that starts with a 2-digit run. -/
lemma parseAMD_corto {sep : Char} {n : Nat} (hn : n < 100) {r : List Char}
    (hr : sinDigitoInicial r) :
    parseAMD sep (pad2 n ++ r) = none := by
  simp only [parseAMD, pAnio_pad2_fail n hn r hr, bind_none]

/-- `%d.../%m...` formats reject a rendering that starts with a 4-digit
run. -/
lemma parseDMA_largo {sep : Char} {y : Nat} (hy : y < 10000) {r : List Char}
    (hr : sinDigitoInicial r) :
    parseDMA sep (pad4 y ++ r) = none := by
  simp only [parseDMA, pNum2_pad4_fail 1 31 y hy r hr, bind_none]

lemma parseMDA_largo {sep : Char} {y : Nat} (hy : y < 10000) {r : List Char}
    (hr : sinDigitoInicial r) :
    parseMDA sep (pad4 y ++ r) = none := by
  simp only [parseMDA, pNum2_pad4_fail 1 12 y hy r hr, bind_none]

/-- Separator mismatch after the first 2-digit field. -/
lemma parseDMA_sep_fail {sep c : Char} (hc : c.isDigit = false) (hne : c ≠ sep)
    {n : Nat} (hn : n < 100) (r : List Char) :
    parseDMA sep (pad2 n ++ c :: r) = none := by
  rw [parseDMA, pNum2_pad2 1 31 n hn _ (sinDigitoInicial_sep hc _)]
  split
  · simp only [bind_some, pSep_distinto hne, bind_none]
  · simp only [bind_none]

lemma parseMDA_sep_fail {sep c : Char} (hc : c.isDigit = false) (hne : c ≠ sep)
    {n : Nat} (hn : n < 100) (r : List Char) :
    parseMDA sep (pad2 n ++ c :: r) = none := by
  rw [parseMDA, pNum2_pad2 1 12 n hn _ (sinDigitoInicial_sep hc _)]
  split
  · simp only [bind_some, pSep_distinto hne, bind_none]
  · simp only [bind_none]

/-- Separator mismatch after the 4-digit year field. -/
lemma parseAMD_sep_fail {sep c : Char} (hc : c.isDigit = false) (hne : c ≠ sep)
    {y : Nat} (hy : y < 10000) (r : List Char) :
    parseAMD sep (pad4 y ++ c :: r) = none := by
  rw [parseAMD, pAnio_pad4 y hy _ (sinDigitoInicial_sep hc _)]
  simp only [bind_some, pSep_distinto hne, bind_none]

/-! ### `estandarizar_fecha` on each rendering -/

lemma estandarizar_fecha_eval (cs : List Char) :
    estandarizar_fecha (some ⟨cs⟩) none =
      match pruebaFormatos formatosDefecto (recortar cs) with
      | some g => some ⟨fechaISO g⟩
      | none => some ⟨recortar cs⟩ := rfl

lemma render_no_espacio (fmt : Formato) (f : Fecha) (hv : fechaValida f = true) :
    ∀ c ∈ renderFormato fmt f, pyIsSpace c = false := by
  obtain ⟨h1, h2, h3, h4, h5, h6⟩ := fechaValida_descomp hv
  have hy4 : f.anio < 10000 := by omega
  have hm100 : f.mes < 100 := by omega
  have hd100 : f.dia < 100 := by
    have := diasEnMes_le_31 f.anio f.mes
    omega
  cases fmt <;> intro c hc <;>
    simp only [renderFormato, List.mem_append, List.mem_cons] at hc <;>
    rcases hc with h | rfl | h | rfl | h <;>
    first
      | exact pad4_no_espacio hy4 c h
      | exact pad2_no_espacio hm100 c h
      | exact pad2_no_espacio hd100 c h
      | decide

/-- Bounds extracted from a valid date, in the form the render lemmas
consume. -/
lemma cotasFecha {f : Fecha} (hv : fechaValida f = true) :
    1 ≤ f.anio ∧ f.anio ≤ 9999 ∧ f.anio < 10000 ∧
    1 ≤ f.mes ∧ f.mes ≤ 12 ∧ f.mes < 100 ∧
    1 ≤ f.dia ∧ f.dia ≤ 31 ∧ f.dia < 100 := by
  obtain ⟨h1, h2, h3, h4, h5, h6⟩ := fechaValida_descomp hv
  have := diasEnMes_le_31 f.anio f.mes
  exact ⟨h1, h2, by omega, h3, h4, by omega, h5, by omega, by omega⟩

lemma estandarizarIso (f : Fecha) (hv : fechaValida f = true) :
    estandarizar_fecha (some ⟨renderFormato .iso f⟩) none = some ⟨fechaISO f⟩ := by
  obtain ⟨_, _, hy4, hm1, hm2, hm100, hd1, hd31, hd100⟩ := cotasFecha hv
  have hI : parseFormato .iso (renderFormato .iso f) = some f :=
    (parseAMD_render (by decide) hy4 hm100 hm1 hm2 hd100 hd1 hd31).trans
      (fechaDe_valida hv)
  rw [estandarizar_fecha_eval,
    recortar_sin_espacios _ (render_no_espacio .iso f hv)]
  simp only [formatosDefecto, pruebaFormatos, hI]

lemma estandarizarDMASlash (f : Fecha) (hv : fechaValida f = true) :
    estandarizar_fecha (some ⟨renderFormato .diaMesAnioSlash f⟩) none =
      some ⟨fechaISO f⟩ := by
  obtain ⟨_, _, hy4, hm1, hm2, hm100, hd1, hd31, hd100⟩ := cotasFecha hv
  have hI : parseFormato .iso (renderFormato .diaMesAnioSlash f) = none :=
    parseAMD_corto hd100 (sinDigitoInicial_sep (by decide) _)
  have hD : parseFormato .diaMesAnioSlash (renderFormato .diaMesAnioSlash f)
      = some f :=
    (parseDMA_render (by decide) hy4 hm100 hm1 hm2 hd100 hd1 hd31).trans
      (fechaDe_valida hv)
  rw [estandarizar_fecha_eval,
    recortar_sin_espacios _ (render_no_espacio .diaMesAnioSlash f hv)]
  simp only [formatosDefecto, pruebaFormatos, hI, hD]

lemma estandarizarDMAGuion (f : Fecha) (hv : fechaValida f = true) :
    estandarizar_fecha (some ⟨renderFormato .diaMesAnioGuion f⟩) none =
      some ⟨fechaISO f⟩ := by
  obtain ⟨_, _, hy4, hm1, hm2, hm100, hd1, hd31, hd100⟩ := cotasFecha hv
  have hI : parseFormato .iso (renderFormato .diaMesAnioGuion f) = none :=
    parseAMD_corto hd100 (sinDigitoInicial_sep (by decide) _)
  have hD : parseFormato .diaMesAnioSlash (renderFormato .diaMesAnioGuion f)
      = none :=
    parseDMA_sep_fail (by decide) (by decide) hd100 _
  have hM : parseFormato .mesDiaAnioSlash (renderFormato .diaMesAnioGuion f)
      = none :=
    parseMDA_sep_fail (by decide) (by decide) hd100 _
  have hG : parseFormato .diaMesAnioGuion (renderFormato .diaMesAnioGuion f)
      = some f :=
    (parseDMA_render (by decide) hy4 hm100 hm1 hm2 hd100 hd1 hd31).trans
      (fechaDe_valida hv)
  rw [estandarizar_fecha_eval,
    recortar_sin_espacios _ (render_no_espacio .diaMesAnioGuion f hv)]
  simp only [formatosDefecto, pruebaFormatos, hI, hD, hM, hG]

lemma estandarizarAMDSlash (f : Fecha) (hv : fechaValida f = true) :
    estandarizar_fecha (some ⟨renderFormato .anioMesDiaSlash f⟩) none =
      some ⟨fechaISO f⟩ := by
  obtain ⟨_, _, hy4, hm1, hm2, hm100, hd1, hd31, hd100⟩ := cotasFecha hv
  have hI : parseFormato .iso (renderFormato .anioMesDiaSlash f) = none :=
    parseAMD_sep_fail (by decide) (by decide) hy4 _
  have hD : parseFormato .diaMesAnioSlash (renderFormato .anioMesDiaSlash f)
      = none :=
    parseDMA_largo hy4 (sinDigitoInicial_sep (by decide) _)
  have hM : parseFormato .mesDiaAnioSlash (renderFormato .anioMesDiaSlash f)
      = none :=
    parseMDA_largo hy4 (sinDigitoInicial_sep (by decide) _)
  have hG : parseFormato .diaMesAnioGuion (renderFormato .anioMesDiaSlash f)
      = none :=
    parseDMA_largo hy4 (sinDigitoInicial_sep (by decide) _)
  have hA : parseFormato .anioMesDiaSlash (renderFormato .anioMesDiaSlash f)
      = some f :=
    (parseAMD_render (by decide) hy4 hm100 hm1 hm2 hd100 hd1 hd31).trans
      (fechaDe_valida hv)
  rw [estandarizar_fecha_eval,
    recortar_sin_espacios _ (render_no_espacio .anioMesDiaSlash f hv)]
  simp only [formatosDefecto, pruebaFormatos, hI, hD, hM, hG, hA]

lemma estandarizarDMAPunto (f : Fecha) (hv : fechaValida f = true) :
    estandarizar_fecha (some ⟨renderFormato .diaMesAnioPunto f⟩) none =
      some ⟨fechaISO f⟩ := by
  obtain ⟨_, _, hy4, hm1, hm2, hm100, hd1, hd31, hd100⟩ := cotasFecha hv
  have hI : parseFormato .iso (renderFormato .diaMesAnioPunto f) = none :=
    parseAMD_corto hd100 (sinDigitoInicial_sep (by decide) _)
  have hD : parseFormato .diaMesAnioSlash (renderFormato .diaMesAnioPunto f)
      = none :=
    parseDMA_sep_fail (by decide) (by decide) hd100 _
  have hM : parseFormato .mesDiaAnioSlash (renderFormato .diaMesAnioPunto f)
      = none :=
    parseMDA_sep_fail (by decide) (by decide) hd100 _
  have hG : parseFormato .diaMesAnioGuion (renderFormato .diaMesAnioPunto f)
      = none :=
    parseDMA_sep_fail (by decide) (by decide) hd100 _
  have hA : parseFormato .anioMesDiaSlash (renderFormato .diaMesAnioPunto f)
      = none :=
    parseAMD_corto hd100 (sinDigitoInicial_sep (by decide) _)
  have hP : parseFormato .diaMesAnioPunto (renderFormato .diaMesAnioPunto f)
      = some f :=
    (parseDMA_render (by decide) hy4 hm100 hm1 hm2 hd100 hd1 hd31).trans
      (fechaDe_valida hv)
  rw [estandarizar_fecha_eval,
    recortar_sin_espacios _ (render_no_espacio .diaMesAnioPunto f hv)]
  simp only [formatosDefecto, pruebaFormatos, hI, hD, hM, hG, hA, hP]

lemma estandarizarMDASlash_intercambio (f : Fecha) (hv : fechaValida f = true)
    (hd12 : f.dia ≤ 12) :
    estandarizar_fecha (some ⟨renderFormato .mesDiaAnioSlash f⟩) none =
      some ⟨fechaISO ⟨f.anio, f.dia, f.mes⟩⟩ := by
  obtain ⟨ha1, ha2, hy4, hm1, hm2, hm100, hd1, hd31, hd100⟩ := cotasFecha hv
  have hI : parseFormato .iso (renderFormato .mesDiaAnioSlash f) = none :=
    parseAMD_corto hm100 (sinDigitoInicial_sep (by decide) _)
  have hmd : f.mes ≤ diasEnMes f.anio f.dia :=
    le_trans (le_trans hm2 (by omega)) (diasEnMes_ge_28 f.anio f.dia)
  have hD : parseFormato .diaMesAnioSlash (renderFormato .mesDiaAnioSlash f)
      = some ⟨f.anio, f.dia, f.mes⟩ :=
    (parseDMA_intercambio hy4 hm100 hm1 hm2 hd100 hd1 hd12).trans
      (fechaDe_exito ha1 ha2 hd1 hd12 hm1 hmd)
  rw [estandarizar_fecha_eval,
    recortar_sin_espacios _ (render_no_espacio .mesDiaAnioSlash f hv)]
  simp only [formatosDefecto, pruebaFormatos, hI, hD]

lemma estandarizarMDASlash_correcto (f : Fecha) (hv : fechaValida f = true)
    (hd12 : 12 < f.dia) :
    estandarizar_fecha (some ⟨renderFormato .mesDiaAnioSlash f⟩) none =
      some ⟨fechaISO f⟩ := by
  obtain ⟨_, _, hy4, hm1, hm2, hm100, hd1, hd31, hd100⟩ := cotasFecha hv
  have hI : parseFormato .iso (renderFormato .mesDiaAnioSlash f) = none :=
    parseAMD_corto hm100 (sinDigitoInicial_sep (by decide) _)
  have hD : parseFormato .diaMesAnioSlash (renderFormato .mesDiaAnioSlash f)
      = none :=
    parseDMA_intercambio_fail hy4 hm100 hm1 hm2 hd100 hd12
  have hM : parseFormato .mesDiaAnioSlash (renderFormato .mesDiaAnioSlash f)
      = some f :=
    (parseMDA_render (by decide) hy4 hm100 hm1 hm2 hd100 hd1 hd31).trans
      (fechaDe_valida hv)
  rw [estandarizar_fecha_eval,
    recortar_sin_espacios _ (render_no_espacio .mesDiaAnioSlash f hv)]
  simp only [formatosDefecto, pruebaFormatos, hI, hD, hM]

lemma fechaISO_intercambio_ne {f : Fecha} (hm100 : f.mes < 100)
    (hd100 : f.dia < 100) (hne : f.dia ≠ f.mes) :
    fechaISO ⟨f.anio, f.dia, f.mes⟩ ≠ fechaISO f := by
  intro h
  unfold fechaISO renderFormato at h
  have h2 := List.append_cancel_left h
  have h3 := (List.cons.injEq .. ▸ h2 : _ ∧ _).2
  have h4 := (List.append_inj h3 rfl).1
  have h5 : f.dia = f.mes := by
    have := congrArg decodeDigits h4
    rwa [decode_pad2 hd100, decode_pad2 hm100] at this
  exact hne h5

/-! ## Claim C5 -/

/-- C5 counterexample: the date 2026-01-05 rendered as `MM/DD/YYYY`
(`"01/05/2026"`) is captured by the earlier `%d/%m/%Y` format and
normalizes to `"2026-05-01"`, while its ISO rendering normalizes to
`"2026-01-05"` — the six renderings do **not** all yield the identical
ISO string. -/
theorem fecha_seis_formatos_refutado :
    renderFormato .mesDiaAnioSlash ⟨2026, 1, 5⟩ = "01/05/2026".data ∧
    estandarizar_fecha (some "01/05/2026") none = some "2026-05-01" ∧
    renderFormato .iso ⟨2026, 1, 5⟩ = "2026-01-05".data ∧
    estandarizar_fecha (some "2026-01-05") none = some "2026-01-05" ∧
    (some "2026-05-01" : Option String) ≠ some "2026-01-05" :=
  ⟨by decide, by decide, by decide, by decide, by decide⟩

/-- C5 (amended): for every valid calendar date, the renderings in the
five formats ISO, `DD/MM/YYYY`, `DD-MM-YYYY`, `YYYY/MM/DD` and
`DD.MM.YYYY` all normalize (hint-less, fixed priority order, first
successful parse wins) to the identical ISO string; the `MM/DD/YYYY`
rendering also does when the day exceeds 12 or equals the month, but
when the day fits in a month slot and differs from the month it is
captured by the earlier `DD/MM/YYYY` format and yields the
day/month-swapped — hence different — ISO string. -/
theorem fecha_seis_formatos (f : Fecha) (hv : fechaValida f = true) :
    (estandarizar_fecha (some ⟨renderFormato .iso f⟩) none
      = some ⟨fechaISO f⟩) ∧
    (estandarizar_fecha (some ⟨renderFormato .diaMesAnioSlash f⟩) none
      = some ⟨fechaISO f⟩) ∧
    (estandarizar_fecha (some ⟨renderFormato .diaMesAnioGuion f⟩) none
      = some ⟨fechaISO f⟩) ∧
    (estandarizar_fecha (some ⟨renderFormato .anioMesDiaSlash f⟩) none
      = some ⟨fechaISO f⟩) ∧
    (estandarizar_fecha (some ⟨renderFormato .diaMesAnioPunto f⟩) none
      = some ⟨fechaISO f⟩) ∧
    (12 < f.dia ∨ f.dia = f.mes →
      estandarizar_fecha (some ⟨renderFormato .mesDiaAnioSlash f⟩) none
        = some ⟨fechaISO f⟩) ∧
    (f.dia ≤ 12 → f.dia ≠ f.mes →
      estandarizar_fecha (some ⟨renderFormato .mesDiaAnioSlash f⟩) none
        = some ⟨fechaISO ⟨f.anio, f.dia, f.mes⟩⟩ ∧
      (⟨fechaISO ⟨f.anio, f.dia, f.mes⟩⟩ : String) ≠ ⟨fechaISO f⟩) := by
  refine ⟨estandarizarIso f hv, estandarizarDMASlash f hv,
    estandarizarDMAGuion f hv, estandarizarAMDSlash f hv,
    estandarizarDMAPunto f hv, ?_, ?_⟩
  · rintro (h12 | higual)
    · exact estandarizarMDASlash_correcto f hv h12
    · obtain ⟨_, _, _, hm1, hm2, _, _, _, _⟩ := cotasFecha hv
      have := estandarizarMDASlash_intercambio f hv (higual ▸ hm2)
      rwa [show (⟨f.anio, f.dia, f.mes⟩ : Fecha) = f from by
        cases f with
        | mk a b c => simp_all] at this
  · intro h12 hne
    obtain ⟨_, _, _, _, _, hm100, _, _, hd100⟩ := cotasFecha hv
    refine ⟨estandarizarMDASlash_intercambio f hv h12, fun he => ?_⟩
    exact fechaISO_intercambio_ne hm100 hd100 hne (congrArg String.data he)

/-- Witness for C5 at the date 2026-03-15 (day 15 > 12, so even the
`MM/DD/YYYY` rendering round-trips). -/
theorem fecha_seis_formatos_testigo :
    fechaValida ⟨2026, 3, 15⟩ = true ∧
    estandarizar_fecha (some ⟨renderFormato .diaMesAnioSlash ⟨2026, 3, 15⟩⟩)
      none = some ⟨fechaISO ⟨2026, 3, 15⟩⟩ ∧
    estandarizar_fecha (some ⟨renderFormato .mesDiaAnioSlash ⟨2026, 3, 15⟩⟩)
      none = some ⟨fechaISO ⟨2026, 3, 15⟩⟩ :=
  ⟨by decide, (fecha_seis_formatos ⟨2026, 3, 15⟩ (by decide)).2.1,
    (fecha_seis_formatos ⟨2026, 3, 15⟩ (by decide)).2.2.2.2.2.1
      (Or.inl (by decide))⟩

/-! ## Claim C8 -/

lemma estandarizar_fecha_eval2 (s : String) :
    estandarizar_fecha (some s) none =
      match pruebaFormatos formatosDefecto (recortar s.data) with
      | some g => some ⟨fechaISO g⟩
      | none => some ⟨recortar s.data⟩ := rfl

lemma parseDMA_valida {sep : Char} {cs : List Char} {f : Fecha}
    (h : parseDMA sep cs = some f) : fechaValida f = true := by
  simp only [parseDMA, Option.bind_eq_some] at h
  obtain ⟨p1, -, r2, -, p2, -, r4, -, p3, -, h6⟩ := h
  split at h6
  · exact (fechaDe_some h6).1
  · exact absurd h6 (by simp)

lemma parseMDA_valida {sep : Char} {cs : List Char} {f : Fecha}
    (h : parseMDA sep cs = some f) : fechaValida f = true := by
  simp only [parseMDA, Option.bind_eq_some] at h
  obtain ⟨p1, -, r2, -, p2, -, r4, -, p3, -, h6⟩ := h
  split at h6
  · exact (fechaDe_some h6).1
  · exact absurd h6 (by simp)

lemma parseAMD_valida {sep : Char} {cs : List Char} {f : Fecha}
    (h : parseAMD sep cs = some f) : fechaValida f = true := by
  simp only [parseAMD, Option.bind_eq_some] at h
  obtain ⟨p1, -, r2, -, p2, -, r4, -, p3, -, h6⟩ := h
  split at h6
  · exact (fechaDe_some h6).1
  · exact absurd h6 (by simp)

lemma parseFormato_valida {fmt : Formato} {cs : List Char} {f : Fecha}
    (h : parseFormato fmt cs = some f) : fechaValida f = true := by
  cases fmt
  · exact parseAMD_valida h
  · exact parseDMA_valida h
  · exact parseMDA_valida h
  · exact parseDMA_valida h
  · exact parseAMD_valida h
  · exact parseDMA_valida h

lemma pruebaFormatos_valida :
    ∀ (fs : List Formato) (cs : List Char) (f : Fecha),
      pruebaFormatos fs cs = some f → fechaValida f = true := by
  intro fs
  induction fs with
  | nil => intro cs f h; simp [pruebaFormatos] at h
  | cons g gs ih =>
      intro cs f h
      rw [pruebaFormatos] at h
      cases hq : parseFormato g cs with
      | some d =>
          rw [hq] at h
          obtain rfl := Option.some.inj h
          exact parseFormato_valida hq
      | none =>
          rw [hq] at h
          exact ih cs f h

/-- C8: `estandarizar_fecha` is idempotent on its own output — whenever
the (hint-less) normalization of an input yields a string that parses
as an ISO `YYYY-MM-DD` date, normalizing that output again returns it
unchanged. -/
theorem fecha_idempotente (s t : String)
    (h : estandarizar_fecha (some s) none = some t)
    (hiso : (parseFormato .iso t.data).isSome = true) :
    estandarizar_fecha (some t) none = some t := by
  rw [estandarizar_fecha_eval2] at h
  cases hp : pruebaFormatos formatosDefecto (recortar s.data) with
  | some g =>
      rw [hp] at h
      obtain rfl : (⟨fechaISO g⟩ : String) = t := Option.some.inj h
      exact estandarizarIso g (pruebaFormatos_valida _ _ _ hp)
  | none =>
      rw [hp] at h
      obtain rfl : (⟨recortar s.data⟩ : String) = t := Option.some.inj h
      exfalso
      have h1 : parseFormato .iso (recortar s.data) = none := by
        rw [formatosDefecto, pruebaFormatos] at hp
        cases hq : parseFormato .iso (recortar s.data) with
        | none => rfl
        | some g2 =>
            rw [hq] at hp
            exact absurd hp (by simp)
      rw [show (⟨recortar s.data⟩ : String).data = recortar s.data from rfl,
        h1] at hiso
      simp at hiso

/-- Witness for C8: normalizing `"05/03/2026"` yields `"2026-03-05"`,
which is ISO-parseable, and renormalizing returns it unchanged. -/
theorem fecha_idempotente_testigo :
    estandarizar_fecha (some "05/03/2026") none = some "2026-03-05" ∧
    (parseFormato .iso ("2026-03-05" : String).data).isSome = true ∧
    estandarizar_fecha (some "2026-03-05") none = some "2026-03-05" :=
  ⟨by decide, by decide,
    fecha_idempotente "05/03/2026" "2026-03-05" (by decide) (by decide)⟩

/-! ## Claim C10 -/

/-- C10: the three scalar normalizers are total and never raise — a
missing value maps to the absent marker for dates and passes through
for product and machine names, and every non-null (string-coerced)
input yields a value. -/
theorem normalizadores_totales :
    (∀ hint : Option Formato, estandarizar_fecha none hint = none) ∧
    (∀ (s : String) (hint : Option Formato),
      (estandarizar_fecha (some s) hint).isSome = true) ∧
    estandarizar_producto none = none ∧
    (∀ s : String, (estandarizar_producto (some s)).isSome = true) ∧
    estandarizar_maquina none = none ∧
    (∀ s : String, (estandarizar_maquina (some s)).isSome = true) := by
  refine ⟨fun hint => rfl, fun s hint => ?_, rfl, fun s => rfl, rfl,
    fun s => rfl⟩
  have heval : estandarizar_fecha (some s) hint =
      match pruebaFormatos (hint.toList ++ formatosDefecto) (recortar s.data) with
      | some g => some ⟨fechaISO g⟩
      | none => some ⟨recortar s.data⟩ := rfl
  rw [heval]
  cases pruebaFormatos (hint.toList ++ formatosDefecto) (recortar s.data) <;>
    rfl

end Etl
